import Mathlib

/-!
Verification of bullet_physics_test: the tracking list of the physics world, the frame driver and
the camera controller.

A shallow embedding of `src/main.cpp`.

* `btScalar` (a C `float`) is read as an element of an arbitrary linearly ordered field `K`:
  comparisons, additions and products are the exact ones; rounding is not modelled.
* `btRigidBody*` is an address, a natural number (`Body`); the fields of the pointed-to bodies
  live in a heap `Body → btRigidBody K`.
* `std::vector<T>` is `List T`; `push_back` appends at the end; a `for` loop over a vector is a
  recursion over the elements that are still to be visited, carrying the running index where the
  source uses it afterwards.
* Calls into the Bullet library whose result the program cannot compute itself (`rayTest`,
  `btSqrt`) and the camera's `pickRay` are parameters of the functions that use them.
* The functions of the C mathematics library (`sin`, `cos`, `tan`, `sqrt`) and `π` are the
  fields of a parameter `Trig K`; a `glm::mat4` is a four by four matrix over `K` and
  `glm::inverse` is the adjugate over the determinant.
* A `for` loop over a `float` counter carries a bound on the number of its iterations; the
  theorems about such a loop show that it ends before the bound is reached.
-/

namespace BulletPhysicsTest

/-! ## Constants of `main.cpp` -/

/-- The macro `BIT(v)`, `1 << v`. -/
def BIT (v : Nat) : Int := ((1 <<< v : Nat) : Int)

/-- The macro `COL_NONE`. -/
def COL_NONE : Int := 0

/-- The macro `COL_OBJECT`. -/
def COL_OBJECT : Int := BIT 1

/-- The macro `COL_CAMERA`. -/
def COL_CAMERA : Int := BIT 2

/-- The macro `COL_GROUND`. -/
def COL_GROUND : Int := BIT 3

/-- The macro `COL_EVERYTHING`. -/
def COL_EVERYTHING : Int := -1

/-- The global `g_width`. -/
def g_width : Nat := 1280

/-- The global `g_height`. -/
def g_height : Nat := 720

/-! ## Vectors and rigid bodies (the part of Bullet's data the program reads and writes) -/

/-- The three components of a `btVector3`. -/
structure btVector3 (K : Type) where
  x : K
  y : K
  z : K
deriving DecidableEq, Repr

/-- The four components of a `btQuaternion`. -/
structure btQuaternion (K : Type) where
  x : K
  y : K
  z : K
  w : K
deriving DecidableEq, Repr

/-- A `btRigidBody*`: the address of a rigid body. -/
abbrev Body := Nat

/-- The fields of a `btRigidBody` that `main.cpp` reads or writes: the centre-of-mass transform
(origin and rotation), the two velocities and the activation flag. -/
structure btRigidBody (K : Type) where
  origin : btVector3 K
  rotation : btQuaternion K
  linearVelocity : btVector3 K
  angularVelocity : btVector3 K
  active : Bool
deriving DecidableEq, Repr

/-- The method `btRigidBody::getCenterOfMassPosition`. -/
def btRigidBody.getCenterOfMassPosition {K : Type} (b : btRigidBody K) : btVector3 K := b.origin

/-- The struct `PhysicsObject`: a body with the group and mask it was created with. -/
structure PhysicsObject where
  body : Body
  group : Int
  mask : Int
deriving DecidableEq, Repr

/-- The struct `Physics`, reduced to the member the program itself maintains: the tracking list
`physicsObjects`.  The Bullet world behind `dynamicWorld` is not part of the embedding. -/
structure Physics where
  physicsObjects : List PhysicsObject
deriving DecidableEq, Repr

/-! ## Creating and removing bodies -/

/-- The overload `Physics::createRigid(mass, startTransform, shape)`.  The argument `body` is the
address that `new btRigidBody(cinfo)` returned; mass, transform and shape only flow into that
constructor.  The result is the world after `push_back` and the returned handle. -/
def Physics.createRigid (self : Physics) (body : Body) : Physics × Body :=
  let po : PhysicsObject := { body := body, group := -1, mask := -1 }
  ({ self with physicsObjects := self.physicsObjects ++ [po] }, body)

/-- The overload `Physics::createRigid(mass, startTransform, shape, collisionFilterGroup, mask)`,
with `body` the address that `new btRigidBody(cinfo)` returned. -/
def Physics.createRigidFiltered (self : Physics) (body : Body) (collisionFilterGroup mask : Int) :
    Physics × Body :=
  let po : PhysicsObject := { body := body, group := collisionFilterGroup, mask := mask }
  ({ self with physicsObjects := self.physicsObjects ++ [po] }, body)

/-- The search loop of `Physics::removeRigidBody`:
`for (; i < physicsObjects.size(); i++) if (body == physicsObjects[i].body) break;`.
The list argument holds the entries from index `i` on; the result is the value of `i` after the
loop. -/
def removeRigidBody.search (body : Body) : List PhysicsObject → Nat → Nat
  | [], i => i
  | po :: rest, i => if body = po.body then i else removeRigidBody.search body rest (i + 1)

/-- The call `v.erase(v.begin() + i)` of `std::vector`.  The iterator has to be dereferenceable,
that is `i < v.size()`; for any other `i` (in particular `v.end()`) the behaviour is undefined,
which is the result `none`. -/
def vectorErase {α : Type} (v : List α) (i : Nat) : Option (List α) :=
  if i < v.length then some (v.eraseIdx i) else none

/-- The method `Physics::removeRigidBody`: the search loop followed by the unconditional
`physicsObjects.erase(physicsObjects.begin() + i)`.  The result is `none` when the erase has
undefined behaviour. -/
def Physics.removeRigidBody (self : Physics) (body : Body) : Option Physics :=
  let i := removeRigidBody.search body self.physicsObjects 0
  match vectorErase self.physicsObjects i with
  | some objs => some { self with physicsObjects := objs }
  | none => none

/-! ## The box query -/

section Query

variable {K : Type} [LinearOrderedField K]

/-- The lambda `pointInAABB` of `Physics::getRigidBodiesFromAABB`. -/
def pointInAABB (minAABB maxAABB point : btVector3 K) : Bool :=
  decide (minAABB.x ≤ point.x) &&
  decide (minAABB.y ≤ point.y) &&
  decide (minAABB.z ≤ point.z) &&
  decide (maxAABB.x ≥ point.x) &&
  decide (maxAABB.y ≥ point.y) &&
  decide (maxAABB.z ≥ point.z)

/-- The loop of `Physics::getRigidBodiesFromAABB` over the entries still to be visited, pushing
onto the output vector `rigidBodies`. -/
def getRigidBodiesFromAABB.loop (heap : Body → btRigidBody K) (minAABB maxAABB : btVector3 K)
    (mask : Int) : List PhysicsObject → List Body → List Body
  | [], rigidBodies => rigidBodies
  | po :: rest, rigidBodies =>
    if po.group = mask then
      let point := (heap po.body).getCenterOfMassPosition
      if pointInAABB minAABB maxAABB point then
        getRigidBodiesFromAABB.loop heap minAABB maxAABB mask rest (rigidBodies ++ [po.body])
      else
        getRigidBodiesFromAABB.loop heap minAABB maxAABB mask rest rigidBodies
    else
      getRigidBodiesFromAABB.loop heap minAABB maxAABB mask rest rigidBodies

/-- The method `Physics::getRigidBodiesFromAABB`; the result is the output vector `rigidBodies`
after the call. -/
def Physics.getRigidBodiesFromAABB (self : Physics) (heap : Body → btRigidBody K)
    (minAABB maxAABB : btVector3 K) (rigidBodies : List Body) (mask : Int) : List Body :=
  getRigidBodiesFromAABB.loop heap minAABB maxAABB mask self.physicsObjects rigidBodies

/-- The selection as the specification words it: the entries that a box query with filter value
`G` returns are those whose recorded group equals `G` and whose centre of mass lies inside the
inclusive box. -/
def selected (heap : Body → btRigidBody K) (minAABB maxAABB : btVector3 K) (G : Int)
    (po : PhysicsObject) : Bool :=
  decide (po.group = G ∧
    (minAABB.x ≤ (heap po.body).origin.x ∧ (heap po.body).origin.x ≤ maxAABB.x) ∧
    (minAABB.y ≤ (heap po.body).origin.y ∧ (heap po.body).origin.y ≤ maxAABB.y) ∧
    (minAABB.z ≤ (heap po.body).origin.z ∧ (heap po.body).origin.z ≤ maxAABB.z))

end Query

/-! ## Vector operations of Bullet used by the camera controller -/

section Vector

variable {K : Type} [LinearOrderedField K]

/-- The operator `btVector3 - btVector3`, componentwise. -/
def btVector3.sub (a b : btVector3 K) : btVector3 K :=
  { x := a.x - b.x, y := a.y - b.y, z := a.z - b.z }

/-- The operator `btVector3 + btVector3`, componentwise. -/
def btVector3.add (a b : btVector3 K) : btVector3 K :=
  { x := a.x + b.x, y := a.y + b.y, z := a.z + b.z }

/-- The unary minus of `btVector3`. -/
def btVector3.neg (a : btVector3 K) : btVector3 K :=
  { x := -a.x, y := -a.y, z := -a.z }

/-- The operator `btVector3 *= btScalar`. -/
def btVector3.mulScalar (a : btVector3 K) (s : K) : btVector3 K :=
  { x := a.x * s, y := a.y * s, z := a.z * s }

/-- The operator `btVector3 /= btScalar`, which Bullet computes as `*this *= 1 / s`. -/
def btVector3.divScalar (a : btVector3 K) (s : K) : btVector3 K :=
  a.mulScalar (1 / s)

/-- The method `btVector3::dot`. -/
def btVector3.dot (a b : btVector3 K) : K :=
  a.x * b.x + a.y * b.y + a.z * b.z

/-- The method `btVector3::length`, `btSqrt(dot(*this))`; the square root is a parameter. -/
def btVector3.length (btSqrt : K → K) (a : btVector3 K) : K :=
  btSqrt (a.dot a)

/-- The method `btVector3::normalize`, `*this /= length()`. -/
def btVector3.normalize (btSqrt : K → K) (a : btVector3 K) : btVector3 K :=
  a.divScalar (a.length btSqrt)

/-- The method `btVector3::setY`. -/
def btVector3.setY (a : btVector3 K) (y : K) : btVector3 K :=
  { a with y := y }

/-- The constructor `btVector3(32, 32, 32)` and its like: all three components equal. -/
def btVector3.splat (s : K) : btVector3 K :=
  { x := s, y := s, z := s }

end Vector

/-! ## The frame driver (`main`) -/

section Frame

variable {K : Type} [LinearOrderedField K]

/-- The macro `FIXED_FRAME_60`, `1.0f / 60.0f`. -/
def FIXED_FRAME_60 : K := 1 / 60

/-- The application callbacks that one iteration of the main loop invokes. -/
inductive AppCall where
  | app_event
  | app_update
  | app_fixedUpdate
  | app_render
deriving DecidableEq, Repr

/-- What one iteration of the main loop leaves behind: the accumulator `g_fixedTime` and the
callbacks it invoked, in order. -/
structure FrameResult (K : Type) where
  g_fixedTime : K
  calls : List AppCall

/-- One iteration of the `while (g_running)` loop of `main`, for an accumulator `g_fixedTime`, a
frame time `g_delta` and `events` polled events.  None of the callbacks touches `g_fixedTime`. -/
def mainLoopBody (g_fixedTime g_delta : K) (events : Nat) : FrameResult K :=
  let g_fixedTime := g_fixedTime + g_delta
  let calls := List.replicate events AppCall.app_event
  let calls := calls ++ [AppCall.app_update]
  let calls := if g_fixedTime ≥ FIXED_FRAME_60 then calls ++ [AppCall.app_fixedUpdate] else calls
  let calls := calls ++ [AppCall.app_render]
  let g_fixedTime := if g_fixedTime ≥ FIXED_FRAME_60 then 0 else g_fixedTime
  { g_fixedTime := g_fixedTime, calls := calls }

/-- The number of `app_fixedUpdate` calls of a frame. -/
def FrameResult.fixedUpdates (r : FrameResult K) : Nat :=
  r.calls.count AppCall.app_fixedUpdate

end Frame

/-! ## The camera controller (`PhysicsCamera`) -/

/-- The enum `PhysicsOptions`. -/
inductive PhysicsOptions where
  | PO_PUSH
  | PO_PULL
  | PO_MASS_PUSH
  | PO_MASS_PULL
  | PO_GRAB_BODY
deriving DecidableEq, Repr

/-- The fields of an `SDL_Event` that `PhysicsCamera::doEvent` reads: `e.type`,
`e.key.keysym.scancode` (read for key events only) and `e.button.button` (read for mouse button
events only). -/
structure SDL_Event where
  type : Nat
  scancode : Nat
  button : Nat
deriving DecidableEq, Repr

/-- The SDL event type `SDL_KEYDOWN`. -/
def SDL_KEYDOWN : Nat := 0x300

/-- The SDL event type `SDL_KEYUP`. -/
def SDL_KEYUP : Nat := 0x301

/-- The SDL event type `SDL_MOUSEBUTTONDOWN`. -/
def SDL_MOUSEBUTTONDOWN : Nat := 0x401

/-- The SDL event type `SDL_MOUSEBUTTONUP`. -/
def SDL_MOUSEBUTTONUP : Nat := 0x402

/-- The SDL scancode of the key `1`. -/
def SDL_SCANCODE_1 : Nat := 30

/-- The SDL scancode of the key `2`. -/
def SDL_SCANCODE_2 : Nat := 31

/-- The SDL scancode of the key `3`. -/
def SDL_SCANCODE_3 : Nat := 32

/-- The SDL scancode of the key `4`. -/
def SDL_SCANCODE_4 : Nat := 33

/-- The SDL scancode of the key `5`. -/
def SDL_SCANCODE_5 : Nat := 34

/-- The SDL mouse button `SDL_BUTTON_LEFT`. -/
def SDL_BUTTON_LEFT : Nat := 1

/-- The SDL mouse button `SDL_BUTTON_RIGHT`. -/
def SDL_BUTTON_RIGHT : Nat := 3

/-- The type `glm::vec2`. -/
structure vec2 (K : Type) where
  x : K
  y : K
deriving DecidableEq, Repr

/-- The struct `PhysicsCamera`; `grabbed = nullptr` is `none`. -/
structure PhysicsCamera (K : Type) where
  body : Body
  rot : vec2 K
  fov : K
  aspect : K
  znear : K
  zfar : K
  speed : K
  walkSpeed : K
  jumpSpeed : K
  options : PhysicsOptions
  grabbed : Option Body
deriving DecidableEq, Repr

/-- What a ray test found: `m_collisionObject` and `m_hitPointWorld` of the
`ClosestRayResultCallback`. -/
structure RayResult (K : Type) where
  m_collisionObject : Body
  m_hitPointWorld : btVector3 K
deriving DecidableEq, Repr

/-- The queries that the camera controller sends to the physics world. -/
inductive Query (K : Type) where
  | rayTest (rayFrom rayTo : btVector3 K) (group mask : Int)
  | getRigidBodiesFromAABB (minAABB maxAABB : btVector3 K) (mask : Int)
deriving DecidableEq, Repr

/-- What `PhysicsCamera::doEvent` does not compute itself: the member function `pickRay` (for the
camera as it is during the event), the outcome of `dynamicWorld->rayTest` for a segment and a
filter group and mask (`none` when `hasHit()` is false), and `btSqrt`. -/
structure Collaborators (K : Type) where
  pickRay : Nat → Nat → btVector3 K
  rayTest : btVector3 K → btVector3 K → Int → Int → Option (RayResult K)
  btSqrt : K → K

/-- The globals that `PhysicsCamera::doEvent` reads or writes: `physics`, the rigid bodies behind
the pointers, `camera`, the end points of `debugLine`, and the log of the queries made so far. -/
structure Scene (K : Type) where
  physics : Physics
  heap : Body → btRigidBody K
  camera : PhysicsCamera K
  debugLine : btVector3 K × btVector3 K
  queries : List (Query K)

section Camera

variable {K : Type} [LinearOrderedField K]

/-- The call `b->activate(true)`. -/
def Scene.activate (s : Scene K) (b : Body) : Scene K :=
  { s with heap := Function.update s.heap b { s.heap b with active := true } }

/-- The call `b->setLinearVelocity(v)`. -/
def Scene.setLinearVelocity (s : Scene K) (b : Body) (v : btVector3 K) : Scene K :=
  { s with heap := Function.update s.heap b { s.heap b with linearVelocity := v } }

/-- The call `debugLine.setLine(from, to)`. -/
def Scene.setLine (s : Scene K) (a b : btVector3 K) : Scene K :=
  { s with debugLine := (a, b) }

/-- The call `physics.dynamicWorld->rayTest(pos, rayTo, rayCallback)` with the callback's filter
group and mask: the query is logged and its outcome comes from the collaborators. -/
def Scene.rayTest (c : Collaborators K) (s : Scene K) (pos rayTo : btVector3 K)
    (group mask : Int) : Scene K × Option (RayResult K) :=
  ({ s with queries := s.queries ++ [Query.rayTest pos rayTo group mask] },
    c.rayTest pos rayTo group mask)

/-- The lambda `phyRayPush` of `PhysicsCamera::doEvent`. -/
def phyRayPush (c : Collaborators K) (s : Scene K) (force : K) : Scene K :=
  let rayTo := c.pickRay (g_width / 2) (g_height / 2)
  let pos := (s.heap s.camera.body).getCenterOfMassPosition
  let pos := pos.setY (pos.y + 1)
  let (s, rayCallback) := s.rayTest c pos rayTo COL_OBJECT COL_OBJECT
  let s := s.setLine pos rayTo
  match rayCallback with
  | some hit =>
    let s := s.setLine pos hit.m_hitPointWorld
    let b := hit.m_collisionObject
    let s := s.activate b
    let dir := (s.heap b).getCenterOfMassPosition.sub pos
    let dir := dir.normalize c.btSqrt
    let dir := dir.mulScalar force
    s.setLinearVelocity b dir
  | none => s

/-- The lambda `phyRayPull` of `PhysicsCamera::doEvent`. -/
def phyRayPull (c : Collaborators K) (s : Scene K) (force : K) : Scene K :=
  let rayTo := c.pickRay (g_width / 2) (g_height / 2)
  let pos := (s.heap s.camera.body).getCenterOfMassPosition
  let pos := pos.setY (pos.y + 1)
  let (s, rayCallback) := s.rayTest c pos rayTo COL_OBJECT COL_OBJECT
  let s := s.setLine pos rayTo
  match rayCallback with
  | some hit =>
    let s := s.setLine pos hit.m_hitPointWorld
    let b := hit.m_collisionObject
    let s := s.activate b
    let dir := pos.sub (s.heap b).getCenterOfMassPosition
    let dir := dir.normalize c.btSqrt
    let dir := dir.mulScalar force
    s.setLinearVelocity b dir
  | none => s

/-- The loop of `phyMassPush` over the bodies still to be visited. -/
def phyMassPush.loop (c : Collaborators K) (point : btVector3 K) (force : K) :
    List Body → Scene K → Scene K
  | [], s => s
  | b :: rest, s =>
    let other := (s.heap b).getCenterOfMassPosition
    let dir := other.sub point
    let dir := dir.normalize c.btSqrt
    let dir := dir.mulScalar force
    let s := s.activate b
    let s := s.setLinearVelocity b dir
    phyMassPush.loop c point force rest s

/-- The lambda `phyMassPush` of `PhysicsCamera::doEvent`. -/
def phyMassPush (c : Collaborators K) (s : Scene K) (offsets : btVector3 K) (force : K) :
    Scene K :=
  let point := (s.heap s.camera.body).getCenterOfMassPosition
  let minAABB := point.sub offsets
  let maxAABB := offsets.add point
  let bodies := s.physics.getRigidBodiesFromAABB s.heap minAABB maxAABB [] COL_OBJECT
  let s := { s with queries := s.queries ++ [Query.getRigidBodiesFromAABB minAABB maxAABB COL_OBJECT] }
  phyMassPush.loop c point force bodies s

/-- The loop of `phyMassPull` over the bodies still to be visited. -/
def phyMassPull.loop (c : Collaborators K) (point : btVector3 K) (force : K) :
    List Body → Scene K → Scene K
  | [], s => s
  | b :: rest, s =>
    let other := (s.heap b).getCenterOfMassPosition
    let dir := point.sub other
    let dir := dir.normalize c.btSqrt
    let dir := dir.mulScalar force
    let s := s.activate b
    let s := s.setLinearVelocity b dir
    phyMassPull.loop c point force rest s

/-- The lambda `phyMassPull` of `PhysicsCamera::doEvent`. -/
def phyMassPull (c : Collaborators K) (s : Scene K) (offsets : btVector3 K) (force : K) :
    Scene K :=
  let point := (s.heap s.camera.body).getCenterOfMassPosition
  let minAABB := point.sub offsets
  let maxAABB := offsets.add point
  let bodies := s.physics.getRigidBodiesFromAABB s.heap minAABB maxAABB [] COL_OBJECT
  let s := { s with queries := s.queries ++ [Query.getRigidBodiesFromAABB minAABB maxAABB COL_OBJECT] }
  phyMassPull.loop c point force bodies s

/-- The lambda `grabRigidBody` of `PhysicsCamera::doEvent`. -/
def grabRigidBody (c : Collaborators K) (s : Scene K) : Scene K :=
  let rayTo := c.pickRay (g_width / 2) (g_height / 2)
  let pos := (s.heap s.camera.body).getCenterOfMassPosition
  let pos := pos.setY (pos.y + 1)
  let (s, rayCallback) := s.rayTest c pos rayTo COL_OBJECT COL_OBJECT
  let s := s.setLine pos rayTo
  match rayCallback with
  | some hit =>
    let s := s.setLine pos rayTo
    { s with camera := { s.camera with grabbed := some hit.m_collisionObject } }
  | none => s

/-- The `switch` on the scancode in the `SDL_KEYUP` branch of `PhysicsCamera::doEvent`. -/
def doEvent.keyUp (cam : PhysicsCamera K) (scancode : Nat) : PhysicsCamera K :=
  if scancode = SDL_SCANCODE_1 then
    { cam with options := PhysicsOptions.PO_PUSH, grabbed := none }
  else if scancode = SDL_SCANCODE_2 then
    { cam with options := PhysicsOptions.PO_PULL, grabbed := none }
  else if scancode = SDL_SCANCODE_3 then
    { cam with options := PhysicsOptions.PO_MASS_PUSH, grabbed := none }
  else if scancode = SDL_SCANCODE_4 then
    { cam with options := PhysicsOptions.PO_MASS_PULL, grabbed := none }
  else if scancode = SDL_SCANCODE_5 then
    { cam with options := PhysicsOptions.PO_GRAB_BODY }
  else
    cam

/-- The `SDL_BUTTON_RIGHT` branch of `PhysicsCamera::doEvent`. -/
def doEvent.rightUp (c : Collaborators K) (s : Scene K) : Scene K :=
  match s.camera.grabbed with
  | some grabbed =>
    if s.camera.options = PhysicsOptions.PO_GRAB_BODY then
      let rayTo := c.pickRay (g_width / 2) (g_height / 2)
      let dir := rayTo.sub (s.heap s.camera.body).getCenterOfMassPosition
      let dir := dir.normalize c.btSqrt
      let dir := dir.mulScalar 128
      let s := s.activate grabbed
      let s := s.setLinearVelocity grabbed dir
      { s with camera := { s.camera with grabbed := none } }
    else s
  | none => s

/-- The `SDL_BUTTON_LEFT` branch of `PhysicsCamera::doEvent`. -/
def doEvent.leftUp (c : Collaborators K) (s : Scene K) : Scene K :=
  match s.camera.grabbed with
  | none =>
    match s.camera.options with
    | PhysicsOptions.PO_PUSH => phyRayPush c s 64
    | PhysicsOptions.PO_PULL => phyRayPull c s 64
    | PhysicsOptions.PO_MASS_PUSH => phyMassPush c s (btVector3.splat 32) 64
    | PhysicsOptions.PO_MASS_PULL => phyMassPull c s (btVector3.splat 32) 64
    | PhysicsOptions.PO_GRAB_BODY => grabRigidBody c s
  | some _ => { s with camera := { s.camera with grabbed := none } }

/-- The method `PhysicsCamera::doEvent`. -/
def doEvent (c : Collaborators K) (s : Scene K) (e : SDL_Event) : Scene K :=
  let s := if e.type = SDL_KEYUP then { s with camera := doEvent.keyUp s.camera e.scancode } else s
  if e.type = SDL_MOUSEBUTTONUP then
    if e.button = SDL_BUTTON_LEFT then doEvent.leftUp c s
    else if e.button = SDL_BUTTON_RIGHT then doEvent.rightUp c s
    else s
  else s

end Camera

/-! ## The vocabulary of the specification -/

section Vocabulary

variable {K : Type} [LinearOrderedField K]

/-- The head position of the specification: the centre of the player body with `y` raised
by one. -/
def headPosition (s : Scene K) : btVector3 K :=
  { x := (s.heap s.camera.body).origin.x,
    y := (s.heap s.camera.body).origin.y + 1,
    z := (s.heap s.camera.body).origin.z }

/-- The squared Euclidean distance of two points. -/
def distSq (a b : btVector3 K) : K :=
  (b.x - a.x) ^ 2 + (b.y - a.y) ^ 2 + (b.z - a.z) ^ 2

/-- The velocity of the specification, `force * (target - source) / |target - source|`, with the
Euclidean length `|target - source|` taken through `btSqrt`. -/
def awayVelocity (btSqrt : K → K) (force : K) (source target : btVector3 K) : btVector3 K :=
  { x := force * (target.x - source.x) / btSqrt (distSq source target),
    y := force * (target.y - source.y) / btSqrt (distSq source target),
    z := force * (target.z - source.z) / btSqrt (distSq source target) }

/-- The box of the specification for the area modes: the inclusive box
`[p - (32,32,32), p + (32,32,32)]`. -/
def inAreaBox (p o : btVector3 K) : Prop :=
  (p.x - 32 ≤ o.x ∧ o.x ≤ p.x + 32) ∧
  (p.y - 32 ≤ o.y ∧ o.y ≤ p.y + 32) ∧
  (p.z - 32 ≤ o.z ∧ o.z ≤ p.z + 32)

/-- The bodies that the area modes affect according to the specification: tracked with group
`COL_OBJECT` and centred inside the box around the player body's centre. -/
def areaAffected (s : Scene K) (b : Body) : Prop :=
  ∃ po ∈ s.physics.physicsObjects, po.body = b ∧ po.group = COL_OBJECT ∧
    inAreaBox (s.heap s.camera.body).origin (s.heap b).origin

/-- The scene with the interaction mode set to `o`. -/
def Scene.withOptions (s : Scene K) (o : PhysicsOptions) : Scene K :=
  { s with camera := { s.camera with options := o } }

end Vocabulary

/-! ## A concrete scene over the rationals -/

/-- A body at rest at the point `(x, y, z)`. -/
def restingBody (x y z : ℚ) : btRigidBody ℚ :=
  { origin := ⟨x, y, z⟩, rotation := ⟨0, 0, 0, 1⟩, linearVelocity := ⟨0, 0, 0⟩,
    angularVelocity := ⟨0, 0, 0⟩, active := false }

/-- The bodies of the concrete scene: the player body `1` at `(0, 2, 0)`, the floor `0`, and the
objects `2` at `(2/3, 2, -2)`, `3` at `(3, 6, 0)` and `4` at `(100, 50, 0)`. -/
def demoHeap : Body → btRigidBody ℚ := fun b =>
  if b = 1 then restingBody 0 2 0
  else if b = 2 then restingBody (2 / 3) 2 (-2)
  else if b = 3 then restingBody 3 6 0
  else if b = 4 then restingBody 100 50 0
  else restingBody 0 0 0

/-- The concrete scene, tracked in the order in which `app_init` creates the bodies: player,
floor, objects; mode `PO_PUSH`, nothing grabbed. -/
def demoScene : Scene ℚ :=
  { physics := { physicsObjects :=
      [⟨1, COL_CAMERA, COL_EVERYTHING⟩, ⟨0, COL_GROUND, COL_EVERYTHING⟩,
       ⟨2, COL_OBJECT, COL_EVERYTHING⟩, ⟨3, COL_OBJECT, COL_EVERYTHING⟩,
       ⟨4, COL_OBJECT, COL_EVERYTHING⟩] }
    heap := demoHeap
    camera :=
      { body := 1, rot := ⟨0, 0⟩, fov := 60, aspect := 16 / 9, znear := 1, zfar := 1024,
        speed := 64, walkSpeed := 512, jumpSpeed := 512,
        options := PhysicsOptions.PO_PUSH, grabbed := none }
    debugLine := (⟨0, 0, 0⟩, ⟨0, 0, 0⟩)
    queries := [] }

/-- The concrete scene while body `2` is grabbed in mode `PO_GRAB_BODY`. -/
def demoSceneGrabbed : Scene ℚ :=
  { demoScene with
    camera := { demoScene.camera with
      options := PhysicsOptions.PO_GRAB_BODY, grabbed := some 2 } }

/-- Collaborators for the concrete scene: the camera looks along `-z`, the ray hits body `2` on
its front face, and the square root is the rational one. -/
def demoCollaborators : Collaborators ℚ :=
  { pickRay := fun _ _ => ⟨0, 0, -1024⟩
    rayTest := fun _ _ _ _ => some ⟨2, ⟨0, 3069 / 1024, -1⟩⟩
    btSqrt := Rat.sqrt }

/-- A release of the left mouse button. -/
def leftRelease : SDL_Event :=
  { type := SDL_MOUSEBUTTONUP, scancode := 0, button := SDL_BUTTON_LEFT }

/-! ## The mathematics libraries: angles, matrices, quaternions -/

/-- The functions of the C mathematics library that glm and Bullet call, and the constant `π`.
Their values are not computed by the program; they are parameters of the functions below. -/
structure Trig (K : Type) where
  sin : K → K
  cos : K → K
  tan : K → K
  sqrt : K → K
  pi : K

/-- The type `glm::vec3`. -/
structure vec3 (K : Type) where
  x : K
  y : K
  z : K
deriving DecidableEq, Repr

/-- The type `glm::mat4`, written as a mathematical matrix: the entry in row `r` and column `c`
is what glm writes `m[c][r]`. -/
abbrev mat4 (K : Type) := Matrix (Fin 4) (Fin 4) K

section Glm

variable {K : Type} [LinearOrderedField K]

/-- The function `glm::radians`: degrees times `π / 180`. -/
def glm.radians (t : Trig K) (degrees : K) : K :=
  degrees * (t.pi / 180)

/-- The function `btRadians` of Bullet: degrees times `π / 180`. -/
def btRadians (t : Trig K) (x : K) : K :=
  x * (t.pi / 180)

/-- The call `glm::translate(glm::mat4(1.0f), v)`. -/
def glm.translate (v : vec3 K) : mat4 K :=
  !![1, 0, 0, v.x;
     0, 1, 0, v.y;
     0, 0, 1, v.z;
     0, 0, 0, 1]

/-- The call `glm::rotate(glm::mat4(1.0f), angle, glm::vec3(1, 0, 0))`. -/
def glm.rotateX (t : Trig K) (angle : K) : mat4 K :=
  !![1, 0, 0, 0;
     0, t.cos angle, -t.sin angle, 0;
     0, t.sin angle, t.cos angle, 0;
     0, 0, 0, 1]

/-- The call `glm::rotate(glm::mat4(1.0f), angle, glm::vec3(0, 1, 0))`. -/
def glm.rotateY (t : Trig K) (angle : K) : mat4 K :=
  !![t.cos angle, 0, t.sin angle, 0;
     0, 1, 0, 0;
     -t.sin angle, 0, t.cos angle, 0;
     0, 0, 0, 1]

/-- The function `glm::perspective(fovy, aspect, zNear, zFar)` (right-handed, depth `-1 .. 1`). -/
def glm.perspective (t : Trig K) (fovy aspect zNear zFar : K) : mat4 K :=
  !![1 / (aspect * t.tan (fovy / 2)), 0, 0, 0;
     0, 1 / t.tan (fovy / 2), 0, 0;
     0, 0, -(zFar + zNear) / (zFar - zNear), -(2 * zFar * zNear) / (zFar - zNear);
     0, 0, -1, 0]

/-- The function `glm::inverse` on `mat4`: the adjugate times one over the determinant. -/
def glm.inverse (m : mat4 K) : mat4 K :=
  (1 / m.det) • m.adjugate

/-- The function `glm::normalize` on `vec3`: the vector times `inversesqrt(dot(v, v))`. -/
def glm.normalize (t : Trig K) (v : vec3 K) : vec3 K :=
  { x := v.x * (1 / t.sqrt (v.x * v.x + v.y * v.y + v.z * v.z)),
    y := v.y * (1 / t.sqrt (v.x * v.x + v.y * v.y + v.z * v.z)),
    z := v.z * (1 / t.sqrt (v.x * v.x + v.y * v.y + v.z * v.z)) }

/-- The product `glm::mat3(m) * v`: the upper left three by three block of `m` applied to `v`. -/
def glm.mat3MulVec (m : mat4 K) (v : vec3 K) : vec3 K :=
  { x := m 0 0 * v.x + m 0 1 * v.y + m 0 2 * v.z,
    y := m 1 0 * v.x + m 1 1 * v.y + m 1 2 * v.z,
    z := m 2 0 * v.x + m 2 1 * v.y + m 2 2 * v.z }

/-- The constructor `btQuaternion(yaw, pitch, roll)` of Bullet, that is `setEuler`. -/
def btQuaternion.setEuler (t : Trig K) (yaw pitch roll : K) : btQuaternion K :=
  let halfYaw := yaw * (1 / 2)
  let halfPitch := pitch * (1 / 2)
  let halfRoll := roll * (1 / 2)
  let cosYaw := t.cos halfYaw
  let sinYaw := t.sin halfYaw
  let cosPitch := t.cos halfPitch
  let sinPitch := t.sin halfPitch
  let cosRoll := t.cos halfRoll
  let sinRoll := t.sin halfRoll
  { x := cosRoll * sinPitch * cosYaw + sinRoll * cosPitch * sinYaw,
    y := cosRoll * cosPitch * sinYaw - sinRoll * sinPitch * cosYaw,
    z := sinRoll * cosPitch * cosYaw - cosRoll * sinPitch * sinYaw,
    w := cosRoll * cosPitch * cosYaw + sinRoll * sinPitch * sinYaw }

end Glm

/-! ## The camera controller: view, projection, picking, update and fixed update -/

section CameraMotion

variable {K : Type} [LinearOrderedField K]

/-- The method `PhysicsCamera::getProjection`. -/
def PhysicsCamera.getProjection (t : Trig K) (cam : PhysicsCamera K) : mat4 K :=
  glm.perspective t (glm.radians t cam.fov) cam.aspect cam.znear cam.zfar

/-- The method `PhysicsCamera::getView`. -/
def PhysicsCamera.getView (t : Trig K) (cam : PhysicsCamera K) (heap : Body → btRigidBody K) :
    mat4 K :=
  let position := (heap cam.body).getCenterOfMassPosition
  let pos : vec3 K := { x := position.x, y := position.y + 1, z := position.z }
  glm.rotateX t (glm.radians t cam.rot.x) *
    glm.rotateY t (glm.radians t cam.rot.y) *
    glm.translate { x := -pos.x, y := -pos.y, z := -pos.z }

/-- The first half of `PhysicsCamera::pickRay`: the vector `coords` after `coords *= zfar` and
before the rotation by the inverse view matrix. -/
def PhysicsCamera.pickRayCoords (t : Trig K) (cam : PhysicsCamera K) (x y : Int) : vec3 K :=
  let coords : vec3 K :=
    { x := (2 * (x : K)) / (g_width : K) - 1,
      y := -((2 * (y : K)) / (g_height : K) - 1),
      z := -1 }
  let proj := cam.getProjection t
  let coords := { coords with x := coords.x / proj 1 1 }
  let coords := { coords with y := coords.y / proj 2 2 }
  { x := coords.x * cam.zfar, y := coords.y * cam.zfar, z := coords.z * cam.zfar }

/-- The method `PhysicsCamera::pickRay`. -/
def PhysicsCamera.pickRay (t : Trig K) (cam : PhysicsCamera K) (heap : Body → btRigidBody K)
    (x y : Int) : btVector3 K :=
  let coords := cam.pickRayCoords t x y
  let view := cam.getView t heap
  let invView := glm.inverse view
  let coords := glm.mat3MulVec invView coords
  { x := coords.x, y := coords.y, z := coords.z }

/-- The SDL scancode of the key `A`. -/
def SDL_SCANCODE_A : Nat := 4

/-- The SDL scancode of the key `D`. -/
def SDL_SCANCODE_D : Nat := 7

/-- The SDL scancode of the key `E`. -/
def SDL_SCANCODE_E : Nat := 8

/-- The SDL scancode of the key `S`. -/
def SDL_SCANCODE_S : Nat := 22

/-- The SDL scancode of the key `W`. -/
def SDL_SCANCODE_W : Nat := 26

/-- The SDL scancode of the space bar. -/
def SDL_SCANCODE_SPACE : Nat := 44

/-- The look part of `PhysicsCamera::update`: the new value of `rot` for the frame time `delta`
and the relative mouse motion `x`, `y`. -/
def PhysicsCamera.update.look (cam : PhysicsCamera K) (delta : K) (x y : Int) : vec2 K :=
  let rot := cam.rot
  let rot := { rot with
    x := rot.x + cam.speed * (y : K) * (if delta - 1 / 1000 < 0 then 1 / 1000 else delta) }
  let rot := { rot with
    y := rot.y + cam.speed * (x : K) * (if delta - 1 / 1000 < 0 then 1 / 1000 else delta) }
  let rot := if rot.y ≤ -360 then { rot with y := rot.y + 360 } else rot
  let rot := if rot.y ≥ 360 then { rot with y := rot.y - 360 } else rot
  let rot := if rot.x < -90 then { rot with x := -90 } else rot
  if rot.x > 90 then { rot with x := 90 } else rot

/-- The move part of `PhysicsCamera::update`: the velocity written into the player body, from
the yaw in radians `yrad`, the velocity `vel` the body had and the keyboard state. -/
def PhysicsCamera.update.move (t : Trig K) (cam : PhysicsCamera K) (yrad : K)
    (vel : btVector3 K) (keys : Nat → Bool) : btVector3 K :=
  let sp := cam.walkSpeed
  let sp := if keys SDL_SCANCODE_E then sp * 3 else sp
  let vel := { vel with x := 0 }
  let vel := { vel with z := 0 }
  let vel := if keys SDL_SCANCODE_SPACE then
    { vel with y := cam.jumpSpeed * FIXED_FRAME_60 } else vel
  let vel := if keys SDL_SCANCODE_W then
    { vel with x := vel.x + sp * t.sin yrad * FIXED_FRAME_60,
               z := vel.z - sp * t.cos yrad * FIXED_FRAME_60 } else vel
  let vel := if keys SDL_SCANCODE_S then
    { vel with x := vel.x - sp * t.sin yrad * FIXED_FRAME_60,
               z := vel.z + sp * t.cos yrad * FIXED_FRAME_60 } else vel
  let vel := if keys SDL_SCANCODE_A then
    { vel with x := vel.x - sp * t.cos yrad * FIXED_FRAME_60,
               z := vel.z - sp * t.sin yrad * FIXED_FRAME_60 } else vel
  if keys SDL_SCANCODE_D then
    { vel with x := vel.x + sp * t.cos yrad * FIXED_FRAME_60,
               z := vel.z + sp * t.sin yrad * FIXED_FRAME_60 } else vel

/-- The method `PhysicsCamera::update`.  The arguments `x` and `y` are the relative mouse motion
that `SDL_GetRelativeMouseState` reports and `keys` is the array of `SDL_GetKeyboardState`. -/
def PhysicsCamera.update (t : Trig K) (s : Scene K) (delta : K) (x y : Int) (keys : Nat → Bool) :
    Scene K :=
  let s := s.activate s.camera.body
  let rot := PhysicsCamera.update.look s.camera delta x y
  let yrad := glm.radians t rot.y
  let vel := (s.heap s.camera.body).linearVelocity
  let vel := PhysicsCamera.update.move t s.camera yrad vel keys
  let s := s.setLinearVelocity s.camera.body vel
  { s with camera := { s.camera with rot := rot } }

/-- The call `grabbed->setCenterOfMassTransform(tran)`. -/
def Scene.setCenterOfMassTransform (s : Scene K) (b : Body) (origin : btVector3 K)
    (rotation : btQuaternion K) : Scene K :=
  { s with heap := Function.update s.heap b { s.heap b with origin := origin, rotation := rotation } }

/-- The method `PhysicsCamera::fixedUpdate`. -/
def PhysicsCamera.fixedUpdate (t : Trig K) (s : Scene K) : Scene K :=
  if s.camera.options = PhysicsOptions.PO_GRAB_BODY then
    match s.camera.grabbed with
    | some grabbed =>
      let trans := glm.translate ({ x := 1 / 2, y := 1 / 2, z := 5 } : vec3 K)
      let movement := trans * s.camera.getView t s.heap
      let movement := glm.inverse movement
      let v := glm.normalize t ({ x := 1, y := 1, z := 1 } : vec3 K)
      let v4 : Fin 4 → K := ![v.x, v.y, v.z, 1]
      let v4 := movement.mulVec v4
      let origin : btVector3 K := { x := v4 0, y := v4 1, z := v4 2 }
      let rotation := btQuaternion.setEuler t (btRadians t (-s.camera.rot.y))
        (btRadians t (-s.camera.rot.x)) 0
      let s := s.activate grabbed
      s.setCenterOfMassTransform grabbed origin rotation
    | none => s
  else s

/-- The function `app_fixedUpdate`: `physics.stepSimulation()`, whose effect on the bodies is
the parameter `stepSimulation`, followed by `camera.fixedUpdate()`. -/
def app_fixedUpdate (t : Trig K) (stepSimulation : (Body → btRigidBody K) → Body → btRigidBody K)
    (s : Scene K) : Scene K :=
  PhysicsCamera.fixedUpdate t { s with heap := stepSimulation s.heap }

end CameraMotion

/-! ## The geometry primitives -/

/-- The buffers that the `init` of a geometry struct fills: the position floats `vertices`, the
texture coordinates `texCoords` (the quad only) and the index list (`indincies`, called `index`
in the quad). -/
structure Geometry (K : Type) where
  vertices : List K
  texCoords : List K
  indincies : List Nat
deriving DecidableEq, Repr

section GeometryInit

variable {K : Type} [LinearOrderedField K]

/-- The method `GeometryPlane::init`. -/
def GeometryPlane.init : Geometry K :=
  { vertices := [1, 0, -1] ++ [1, 0, 1] ++ [-1, 0, -1] ++ [-1, 0, 1]
    texCoords := []
    indincies := [0, 1, 2] ++ [2, 1, 3] }

/-- The method `GeometryCube::init`. -/
def GeometryCube.init : Geometry K :=
  { vertices :=
      [-1, 1, -1] ++ [1, 1, -1] ++ [-1, -1, -1] ++ [1, -1, -1] ++
      [-1, 1, 1] ++ [1, 1, 1] ++ [-1, -1, 1] ++ [1, -1, 1]
    texCoords := []
    indincies :=
      [0, 2, 4] ++ [4, 2, 6] ++ [1, 3, 5] ++ [5, 3, 7] ++ [0, 1, 4] ++ [4, 1, 5] ++
      [2, 3, 6] ++ [6, 3, 7] ++ [4, 5, 6] ++ [6, 5, 7] ++ [0, 1, 2] ++ [2, 1, 3] }

/-- The method `GeometryQuad::init`. -/
def GeometryQuad.init : Geometry K :=
  { vertices := [-1, 1, 0] ++ [1, 1, 0] ++ [-1, -1, 0] ++ [1, -1, 0]
    texCoords := [0, 0] ++ [1, 0] ++ [0, 1] ++ [1, 1]
    indincies := [0, 1, 2] ++ [2, 1, 3] }

/-- The inner vertex loop of `GeometrySphere::init`,
`for (float pheta = 0.0f; pheta < 360.0f; pheta += slice)`, from the current `pheta` on.  The
first argument bounds the number of iterations; the result is `none` when it is used up. -/
def GeometrySphere.init.inner (t : Trig K) (p slice phi : K) : Nat → K → List K → Option (List K)
  | 0, _, _ => none
  | fuel + 1, pheta, list =>
    if pheta < 360 then
      let rphi := glm.radians t phi
      let rpheta := glm.radians t pheta
      let x := p * t.sin rphi * t.cos rpheta
      let y := p * t.sin rphi * t.sin rpheta
      let z := p * t.cos rphi
      GeometrySphere.init.inner t p slice phi fuel (pheta + slice) (list ++ [x, y, z])
    else some list

/-- The outer vertex loop of `GeometrySphere::init`,
`for (float phi = 0.0f; phi <= 180.0f; phi += slice2)`, from the current `phi` on.  The
argument `fuel` bounds the number of iterations of each inner loop and the next argument those
of the outer loop; the result is `none` when one of them is used up. -/
def GeometrySphere.init.outer (t : Trig K) (p slice slice2 : K) (fuel : Nat) :
    Nat → K → List K → Option (List K)
  | 0, _, _ => none
  | outerFuel + 1, phi, list =>
    if phi ≤ 180 then
      match GeometrySphere.init.inner t p slice phi fuel 0 list with
      | some list => GeometrySphere.init.outer t p slice slice2 fuel outerFuel (phi + slice2) list
      | none => none
    else some list

/-- The index loops of `GeometrySphere::init`. -/
def GeometrySphere.init.indices (count : Nat) : List Nat :=
  (List.range (count / 2)).flatMap fun y =>
    (List.range count).flatMap fun x =>
      let p0 := y * count + x
      let p1 := y * count + (x + 1)
      let p2 := (y + 1) * count + x
      let p3 := (y + 1) * count + (x + 1)
      [p0, p1, p2] ++ [p2, p1, p3]

/-- The method `GeometrySphere::init`, with a bound `fuel` on the number of iterations of each
of the two vertex loops; the result is `none` when the bound is too small. -/
def GeometrySphere.init (t : Trig K) (fuel : Nat) : Option (Geometry K) :=
  let count : Nat := 32
  let p : K := 1
  let slice : K := 360 / (count : K)
  let slice2 : K := 180 / ((count / 2 : Nat) : K)
  match GeometrySphere.init.outer t p slice slice2 fuel fuel 0 [] with
  | some vertices =>
    some { vertices := vertices, texCoords := [], indincies := GeometrySphere.init.indices count }
  | none => none

/-- The number of vertices of a geometry: the position floats over three. -/
def Geometry.vertexCount (g : Geometry K) : Nat :=
  g.vertices.length / 3

end GeometryInit

/-! ## Further concrete inputs over the rationals -/

/-- A release of the right mouse button. -/
def rightRelease : SDL_Event :=
  { type := SDL_MOUSEBUTTONUP, scancode := 0, button := SDL_BUTTON_RIGHT }

/-- Collaborators for the concrete scene when the ray hits nothing. -/
def demoCollaboratorsMiss : Collaborators ℚ :=
  { pickRay := fun _ _ => ⟨0, 0, -1024⟩
    rayTest := fun _ _ _ _ => none
    btSqrt := Rat.sqrt }

/-- A stand-in over the rationals for the mathematics library: sine and cosine in the rational
parametrisation of the circle, for which `sin² + cos² = 1` at every argument, and the
rational square root. -/
def demoTrig : Trig ℚ :=
  { sin := fun a => 2 * a / (1 + a ^ 2)
    cos := fun a => (1 - a ^ 2) / (1 + a ^ 2)
    tan := fun a => 2 * a / (1 - a ^ 2)
    sqrt := Rat.sqrt
    pi := 22 / 7 }

/-- The keyboard with no key held. -/
def noKeys : Nat → Bool := fun _ => false

/-- The keyboard with `W` and the run key `E` held. -/
def runForwardKeys : Nat → Bool := fun k => k == SDL_SCANCODE_W || k == SDL_SCANCODE_E

section MoveVocabulary

variable {K : Type} [LinearOrderedField K]

/-- The horizontal direction of the specification for a set of held keys and a yaw in radians:
the sum over the held keys of `W: (sin, -cos)`, `S: (-sin, cos)`, `A: (-cos, -sin)` and
`D: (cos, sin)`; the first component is along `x`, the second along `z`. -/
def moveDirection (t : Trig K) (yaw : K) (keys : Nat → Bool) : K × K :=
  ((if keys SDL_SCANCODE_W then t.sin yaw else 0) +
      (if keys SDL_SCANCODE_S then -t.sin yaw else 0) +
      (if keys SDL_SCANCODE_A then -t.cos yaw else 0) +
      (if keys SDL_SCANCODE_D then t.cos yaw else 0),
    (if keys SDL_SCANCODE_W then -t.cos yaw else 0) +
      (if keys SDL_SCANCODE_S then t.cos yaw else 0) +
      (if keys SDL_SCANCODE_A then -t.sin yaw else 0) +
      (if keys SDL_SCANCODE_D then t.sin yaw else 0))

end MoveVocabulary

section PickVocabulary

variable {K : Type} [LinearOrderedField K]

/-- The normalized device `x` of the specification for a screen `x`: `2x / g_width - 1`. -/
def ndcX (x : Int) : K :=
  2 * (x : K) / (g_width : K) - 1

/-- The normalized device `y` of the specification for a screen `y`: `-(2y / g_height - 1)`. -/
def ndcY (y : Int) : K :=
  -(2 * (y : K) / (g_height : K) - 1)

/-- The projection of a camera-space point as the specification words it: the projection matrix
applied to the point, followed by the perspective divide; the result is the normalized device
`x` and `y`. -/
def projectToNdc (proj : mat4 K) (p : vec3 K) : K × K :=
  ((proj.mulVec ![p.x, p.y, p.z, 1]) 0 / (proj.mulVec ![p.x, p.y, p.z, 1]) 3,
    (proj.mulVec ![p.x, p.y, p.z, 1]) 1 / (proj.mulVec ![p.x, p.y, p.z, 1]) 3)

/-- The keyboard with only `W` held. -/
def forwardKeys : Nat → Bool := fun k => k == SDL_SCANCODE_W

end PickVocabulary

/-! ## Runs of the program: sequences of frames and of calls into the camera controller -/

section Runs

variable {K : Type} [LinearOrderedField K]

/-- The `while (g_running)` loop of `main` over the listed frames, each with its frame time
`g_delta` and its number of polled events, from the accumulator `g_fixedTime` on; the result
lists what every frame leaves behind, in order. -/
def mainLoop (g_fixedTime : K) : List (K × Nat) → List (FrameResult K)
  | [] => []
  | frame :: rest =>
    mainLoopBody g_fixedTime frame.1 frame.2 ::
      mainLoop (mainLoopBody g_fixedTime frame.1 frame.2).g_fixedTime rest

/-- The number of `app_fixedUpdate` calls of a run of the main loop. -/
def fixedUpdateCount (results : List (FrameResult K)) : Nat :=
  (results.map FrameResult.fixedUpdates).sum

/-- The calls through which the program reaches the camera controller: `camera.doEvent(e)` from
`app_event`, `camera.update(delta)` from `app_update`, and `camera.fixedUpdate()`, alone or after
the world step as in `app_fixedUpdate`.  Every call carries what it reads from outside the
scene: the collaborators, the mouse and keyboard state, the effect of the world step. -/
inductive CameraCall (K : Type) where
  | doEvent (c : Collaborators K) (e : SDL_Event)
  | update (t : Trig K) (delta : K) (x y : Int) (keys : Nat → Bool)
  | fixedUpdate (t : Trig K)
  | app_fixedUpdate (t : Trig K)
      (stepSimulation : (Body → btRigidBody K) → Body → btRigidBody K)

/-- The scene after one call into the camera controller. -/
def CameraCall.apply (s : Scene K) : CameraCall K → Scene K
  | CameraCall.doEvent c e => BulletPhysicsTest.doEvent c s e
  | CameraCall.update t delta x y keys => PhysicsCamera.update t s delta x y keys
  | CameraCall.fixedUpdate t => PhysicsCamera.fixedUpdate t s
  | CameraCall.app_fixedUpdate t stepSimulation =>
    BulletPhysicsTest.app_fixedUpdate t stepSimulation s

/-- The scene after a sequence of calls into the camera controller. -/
def runCalls (s : Scene K) (calls : List (CameraCall K)) : Scene K :=
  calls.foldl CameraCall.apply s

/-- The initial state of the camera controller, from the member initialisers of
`PhysicsCamera`: mode `PO_PUSH`, nothing grabbed. -/
def initialCamera (s : Scene K) : Prop :=
  s.camera.options = PhysicsOptions.PO_PUSH ∧ s.camera.grabbed = none

/-- The invariant of the specification: whenever a body is grabbed the mode is
`PO_GRAB_BODY`. -/
def grabbedInGrabMode (s : Scene K) : Prop :=
  ∀ g : Body, s.camera.grabbed = some g → s.camera.options = PhysicsOptions.PO_GRAB_BODY

end Runs

/-- A release of the key `5`. -/
def key5Release : SDL_Event :=
  { type := SDL_KEYUP, scancode := SDL_SCANCODE_5, button := 0 }

/-- A run over the concrete scene: key `5` is released, the left button is released and the ray
hits body `2`, then a frame without input follows and a fixed tick whose world step moves no
body. -/
def demoCalls : List (CameraCall ℚ) :=
  [CameraCall.doEvent demoCollaborators key5Release,
   CameraCall.doEvent demoCollaborators leftRelease,
   CameraCall.update demoTrig (1 / 60) 0 0 noKeys,
   CameraCall.app_fixedUpdate demoTrig id]

/-- Three frames of 10, 10 and 20 milliseconds with 0, 2 and 0 polled events. -/
def demoFrames : List (ℚ × Nat) :=
  [(1 / 100, 0), (1 / 100, 2), (1 / 50, 0)]

/-! ## Theorems: the tracking list -/

section TrackingList

variable {K : Type} [LinearOrderedField K]

/-- The lambda `pointInAABB` is the inclusive containment test on the three axes. -/
theorem pointInAABB_iff (minAABB maxAABB point : btVector3 K) :
    pointInAABB minAABB maxAABB point = true ↔
      (minAABB.x ≤ point.x ∧ point.x ≤ maxAABB.x) ∧
      (minAABB.y ≤ point.y ∧ point.y ≤ maxAABB.y) ∧
      (minAABB.z ≤ point.z ∧ point.z ≤ maxAABB.z) := by
  simp only [pointInAABB, Bool.and_eq_true, decide_eq_true_eq, ge_iff_le]
  tauto

/-- The query loop appends the bodies of the selected entries, in order. -/
theorem getRigidBodiesFromAABB_loop_eq (heap : Body → btRigidBody K)
    (minAABB maxAABB : btVector3 K) (G : Int) (objs : List PhysicsObject) (out : List Body) :
    getRigidBodiesFromAABB.loop heap minAABB maxAABB G objs out =
      out ++ (objs.filter (selected heap minAABB maxAABB G)).map PhysicsObject.body := by
  induction objs generalizing out with
  | nil => simp [getRigidBodiesFromAABB.loop]
  | cons po rest ih =>
    by_cases hg : po.group = G
    · by_cases hp : pointInAABB minAABB maxAABB (heap po.body).getCenterOfMassPosition = true
      · have hs : selected heap minAABB maxAABB G po = true := by
          have := (pointInAABB_iff minAABB maxAABB _).1 hp
          simp only [btRigidBody.getCenterOfMassPosition] at this
          simp [selected, hg, this]
        simp [getRigidBodiesFromAABB.loop, hg, hp, hs, ih]
      · have hs : selected heap minAABB maxAABB G po = false := by
          have h := (pointInAABB_iff minAABB maxAABB (heap po.body).getCenterOfMassPosition).not.1 hp
          simp only [btRigidBody.getCenterOfMassPosition] at h
          simp only [selected, decide_eq_false_iff_not]
          exact fun hh => h hh.2
        simp [getRigidBodiesFromAABB.loop, hg, hp, hs, ih]
    · have hs : selected heap minAABB maxAABB G po = false := by
        simp only [selected, decide_eq_false_iff_not]
        exact fun hh => hg hh.1
      simp [getRigidBodiesFromAABB.loop, hg, hs, ih]

/-- The search loop of `removeRigidBody` walks past every entry of another body. -/
theorem search_not_found (body : Body) (objs : List PhysicsObject) (i : Nat)
    (h : ∀ po ∈ objs, po.body ≠ body) :
    removeRigidBody.search body objs i = i + objs.length := by
  induction objs generalizing i with
  | nil => simp [removeRigidBody.search]
  | cons po rest ih =>
    have hpo : ¬ body = po.body := fun e => h po (List.mem_cons_self _ _) e.symm
    have hrest : ∀ q ∈ rest, q.body ≠ body := fun q hq => h q (List.mem_cons_of_mem _ hq)
    simp only [removeRigidBody.search, hpo, if_false, ih (i + 1) hrest, List.length_cons]
    omega

/-- The search loop of `removeRigidBody` stops at the first entry of the body. -/
theorem search_found (body : Body) (before after : List PhysicsObject) (po : PhysicsObject)
    (i : Nat) (hpo : po.body = body) (h : ∀ q ∈ before, q.body ≠ body) :
    removeRigidBody.search body (before ++ po :: after) i = i + before.length := by
  induction before generalizing i with
  | nil => simp [removeRigidBody.search, hpo]
  | cons q rest ih =>
    have hq : ¬ body = q.body := fun e => h q (List.mem_cons_self _ _) e.symm
    have hrest : ∀ r ∈ rest, r.body ≠ body := fun r hr => h r (List.mem_cons_of_mem _ hr)
    rw [List.cons_append, removeRigidBody.search, if_neg hq, ih (i + 1) hrest, List.length_cons]
    omega

/-- A list that holds an entry of the body splits at the first such entry. -/
theorem split_at_first (body : Body) (objs : List PhysicsObject)
    (h : ∃ po ∈ objs, po.body = body) :
    ∃ before po after, objs = before ++ po :: after ∧ po.body = body ∧
      ∀ q ∈ before, q.body ≠ body := by
  induction objs with
  | nil => obtain ⟨po, hpo, _⟩ := h; simp at hpo
  | cons q rest ih =>
    by_cases hq : q.body = body
    · exact ⟨[], q, rest, rfl, hq, by simp⟩
    · have : ∃ po ∈ rest, po.body = body := by
        obtain ⟨po, hpo, hb⟩ := h
        rcases List.mem_cons.1 hpo with e | hmem
        · exact absurd (e ▸ hb) hq
        · exact ⟨po, hmem, hb⟩
      obtain ⟨before, po, after, e, hb, hbefore⟩ := ih this
      refine ⟨q :: before, po, after, by simp [e], hb, ?_⟩
      intro r hr
      rcases List.mem_cons.1 hr with e | hmem
      · exact e ▸ hq
      · exact hbefore r hmem

/-- Erasing the element at the end of a prefix. -/
theorem eraseIdx_split {α : Type} (before after : List α) (a : α) :
    (before ++ a :: after).eraseIdx before.length = before ++ after := by
  induction before with
  | nil => simp
  | cons b rest ih => simp [ih]

/-- The method `removeRigidBody` on a list split at the first entry of the body. -/
theorem removeRigidBody_split (body : Body) (before after : List PhysicsObject)
    (po : PhysicsObject) (hpo : po.body = body) (h : ∀ q ∈ before, q.body ≠ body) :
    Physics.removeRigidBody { physicsObjects := before ++ po :: after } body =
      some { physicsObjects := before ++ after } := by
  simp only [Physics.removeRigidBody, search_found body before after po 0 hpo h, vectorErase,
    Nat.zero_add]
  have hlt : before.length < (before ++ po :: after).length := by simp
  simp only [hlt, if_true, eraseIdx_split]

/-- Claim C1.  `Physics::getRigidBodiesFromAABB` leaves the output vector equal to its old contents
followed by the bodies of exactly those tracked entries whose recorded group equals the filter
value and whose centre of mass lies in the inclusive box, in tracking-list order.  An entry whose
group differs from the filter value contributes nothing, even when the two share a bit: `-1` and
`COL_OBJECT` do, and an entry made by the overload of `createRigid` without group and mask is
not returned for `COL_OBJECT`. -/
theorem getRigidBodiesFromAABB_spec (self : Physics) (heap : Body → btRigidBody K)
    (minAABB maxAABB : btVector3 K) (G : Int) (out : List Body) :
    self.getRigidBodiesFromAABB heap minAABB maxAABB out G =
        out ++ (self.physicsObjects.filter (selected heap minAABB maxAABB G)).map
          PhysicsObject.body ∧
      (∀ (before after : List PhysicsObject) (po : PhysicsObject), po.group ≠ G →
        Physics.getRigidBodiesFromAABB { physicsObjects := before ++ po :: after } heap minAABB
            maxAABB out G =
          Physics.getRigidBodiesFromAABB { physicsObjects := before ++ after } heap minAABB
            maxAABB out G) ∧
      Int.land (-1) COL_OBJECT ≠ 0 ∧
      (∀ body : Body,
        (self.createRigid body).1.getRigidBodiesFromAABB heap minAABB maxAABB out COL_OBJECT =
          self.getRigidBodiesFromAABB heap minAABB maxAABB out COL_OBJECT) := by
  refine ⟨getRigidBodiesFromAABB_loop_eq heap minAABB maxAABB G _ out, ?_, ?_, ?_⟩
  · intro before after po hpo
    have hs : selected heap minAABB maxAABB G po = false := by
      simp only [selected, decide_eq_false_iff_not]
      exact fun hh => hpo hh.1
    simp [Physics.getRigidBodiesFromAABB, getRigidBodiesFromAABB_loop_eq, hs]
  · show ((Nat.ldiff (1 <<< 1) 0 : Nat) : Int) ≠ 0
    simp [Nat.ldiff]
  · intro body
    have hs : selected heap minAABB maxAABB COL_OBJECT
        { body := body, group := -1, mask := -1 } = false := by
      simp only [selected, decide_eq_false_iff_not]
      exact fun hh => absurd hh.1 (by decide)
    simp [Physics.getRigidBodiesFromAABB, Physics.createRigid, getRigidBodiesFromAABB_loop_eq, hs]

/-- Claim C2.  `Physics::removeRigidBody` called with a tracked body removes exactly the first
entry of that body: the list splits as `before ++ po :: after` with `po` the first entry of the
body, the list afterwards is `before ++ after` (every other entry kept as it was and in the same
order) and the tracked count is one less. -/
theorem removeRigidBody_tracked (self : Physics) (body : Body)
    (h : ∃ po ∈ self.physicsObjects, po.body = body) :
    ∃ before po after, self.physicsObjects = before ++ po :: after ∧ po.body = body ∧
      (∀ q ∈ before, q.body ≠ body) ∧
      self.removeRigidBody body = some { physicsObjects := before ++ after } ∧
      (before ++ after).length + 1 = self.physicsObjects.length := by
  obtain ⟨before, po, after, e, hpo, hbefore⟩ := split_at_first body self.physicsObjects h
  refine ⟨before, po, after, e, hpo, hbefore, ?_, by simp [e]; omega⟩
  have hself : self = { physicsObjects := before ++ po :: after } := by
    cases self; simp only [Physics.mk.injEq]; exact e
  rw [hself]
  exact removeRigidBody_split body before after po hpo hbefore

/-- A tracked body for claim C2: body `7` is the second and the third entry of the list, and the
second one goes. -/
theorem removeRigidBody_tracked_witness :
    ∃ before po after,
      (Physics.mk [⟨5, 2, -1⟩, ⟨7, 2, -1⟩, ⟨7, 4, -1⟩]).physicsObjects = before ++ po :: after ∧
      po.body = 7 ∧ (∀ q ∈ before, q.body ≠ 7) ∧
      (Physics.mk [⟨5, 2, -1⟩, ⟨7, 2, -1⟩, ⟨7, 4, -1⟩]).removeRigidBody 7 =
        some { physicsObjects := before ++ after } ∧
      (before ++ after).length + 1 =
        (Physics.mk [⟨5, 2, -1⟩, ⟨7, 2, -1⟩, ⟨7, 4, -1⟩]).physicsObjects.length :=
  removeRigidBody_tracked (Physics.mk [⟨5, 2, -1⟩, ⟨7, 2, -1⟩, ⟨7, 4, -1⟩]) 7
    ⟨⟨7, 2, -1⟩, by decide, rfl⟩

/-- Claim C3, the behaviour of the code.  When the body is not tracked the search loop of
`Physics::removeRigidBody` ends with the index equal to the list size, and the erase that follows
is `erase(end())`, whose behaviour is undefined: the call has no defined result, so the list is
not left unchanged.  The instance is a one-entry list and another body. -/
theorem removeRigidBody_untracked :
    (∀ (self : Physics) (body : Body), (∀ po ∈ self.physicsObjects, po.body ≠ body) →
      removeRigidBody.search body self.physicsObjects 0 = self.physicsObjects.length ∧
      self.removeRigidBody body = none) ∧
    removeRigidBody.search 9 [⟨7, 2, -1⟩] 0 = 1 ∧
    (Physics.mk [⟨7, 2, -1⟩]).removeRigidBody 9 = none := by
  refine ⟨?_, by decide, by decide⟩
  intro self body h
  have hs := search_not_found body self.physicsObjects 0 h
  rw [Nat.zero_add] at hs
  refine ⟨hs, ?_⟩
  simp [Physics.removeRigidBody, hs, vectorErase]

/-- Claim C4.  Both overloads of `Physics::createRigid` append exactly one entry at the end of the
tracking list and change no existing entry; the overload with group and mask records the values
it was given, the other one records `-1` and `-1`; the tracked count grows by one and the returned
handle is the body of the new last entry. -/
theorem createRigid_spec (self : Physics) (body : Body) (collisionFilterGroup mask : Int) :
    ((self.createRigidFiltered body collisionFilterGroup mask).1.physicsObjects =
        self.physicsObjects ++ [{ body := body, group := collisionFilterGroup, mask := mask }] ∧
      (self.createRigidFiltered body collisionFilterGroup mask).1.physicsObjects.length =
        self.physicsObjects.length + 1 ∧
      (∀ i, i < self.physicsObjects.length →
        (self.createRigidFiltered body collisionFilterGroup mask).1.physicsObjects[i]? =
          self.physicsObjects[i]?) ∧
      (self.createRigidFiltered body collisionFilterGroup mask).1.physicsObjects.getLast?.map
          PhysicsObject.body =
        some (self.createRigidFiltered body collisionFilterGroup mask).2) ∧
    ((self.createRigid body).1.physicsObjects =
        self.physicsObjects ++ [{ body := body, group := -1, mask := -1 }] ∧
      (self.createRigid body).1.physicsObjects.length = self.physicsObjects.length + 1 ∧
      (∀ i, i < self.physicsObjects.length →
        (self.createRigid body).1.physicsObjects[i]? = self.physicsObjects[i]?) ∧
      (self.createRigid body).1.physicsObjects.getLast?.map PhysicsObject.body =
        some (self.createRigid body).2) := by
  refine ⟨⟨rfl, by simp [Physics.createRigidFiltered], ?_, by simp [Physics.createRigidFiltered]⟩,
    ⟨rfl, by simp [Physics.createRigid], ?_, by simp [Physics.createRigid]⟩⟩
  · intro i hi
    simp [Physics.createRigidFiltered, List.getElem?_append_left hi]
  · intro i hi
    simp [Physics.createRigid, List.getElem?_append_left hi]

/-- Claim C5.  Round trip of the tracking list: when the address of the new body is not already
tracked (the allocation returns an address that no live body has), creating a body with either
overload of `createRigid` and then removing that body gives back the tracking list exactly; doing
the pair twice in a row, with the same arguments, gives the list back again, so the tracked count
is what it was before the first creation. -/
theorem createRigid_removeRigidBody (self : Physics) (b1 b2 : Body)
    (collisionFilterGroup mask : Int)
    (h1 : ∀ po ∈ self.physicsObjects, po.body ≠ b1)
    (h2 : ∀ po ∈ self.physicsObjects, po.body ≠ b2) :
    (self.createRigidFiltered b1 collisionFilterGroup mask).1.removeRigidBody
        (self.createRigidFiltered b1 collisionFilterGroup mask).2 = some self ∧
      (self.createRigid b1).1.removeRigidBody (self.createRigid b1).2 = some self ∧
      (((self.createRigidFiltered b1 collisionFilterGroup mask).1.removeRigidBody
          (self.createRigidFiltered b1 collisionFilterGroup mask).2).bind fun s =>
        (s.createRigidFiltered b2 collisionFilterGroup mask).1.removeRigidBody
          (s.createRigidFiltered b2 collisionFilterGroup mask).2) = some self ∧
      (((self.createRigid b1).1.removeRigidBody (self.createRigid b1).2).bind fun s =>
        (s.createRigid b2).1.removeRigidBody (s.createRigid b2).2) = some self ∧
      ∀ s, (((self.createRigidFiltered b1 collisionFilterGroup mask).1.removeRigidBody
          (self.createRigidFiltered b1 collisionFilterGroup mask).2).bind fun s =>
        (s.createRigidFiltered b2 collisionFilterGroup mask).1.removeRigidBody
          (s.createRigidFiltered b2 collisionFilterGroup mask).2) = some s →
        s.physicsObjects.length = self.physicsObjects.length := by
  have key : ∀ (b : Body) (g m : Int), (∀ po ∈ self.physicsObjects, po.body ≠ b) →
      Physics.removeRigidBody { physicsObjects := self.physicsObjects ++ [⟨b, g, m⟩] } b =
        some self := by
    intro b g m hb
    have := removeRigidBody_split b self.physicsObjects [] ⟨b, g, m⟩ rfl hb
    simpa using this
  have e1 := key b1 collisionFilterGroup mask h1
  have e2 := key b2 collisionFilterGroup mask h2
  have e3 := key b1 (-1) (-1) h1
  have e4 := key b2 (-1) (-1) h2
  have f1 : (self.createRigidFiltered b1 collisionFilterGroup mask).1.removeRigidBody
      (self.createRigidFiltered b1 collisionFilterGroup mask).2 = some self := e1
  have f3 : (self.createRigid b1).1.removeRigidBody (self.createRigid b1).2 = some self := e3
  refine ⟨f1, f3, ?_, ?_, ?_⟩
  · rw [f1]; exact e2
  · rw [f3]; exact e4
  · intro s hs
    rw [f1] at hs
    have : some self = some s := e2.symm.trans hs
    cases this
    rfl

/-- A fresh address for claim C5: bodies `5` and `7` are tracked, the allocations return `9` and
then `9` again. -/
theorem createRigid_removeRigidBody_witness :
    ((Physics.mk [⟨5, 8, -1⟩, ⟨7, 2, -1⟩]).createRigidFiltered 9 2 (-1)).1.removeRigidBody 9 =
      some (Physics.mk [⟨5, 8, -1⟩, ⟨7, 2, -1⟩]) :=
  (createRigid_removeRigidBody (Physics.mk [⟨5, 8, -1⟩, ⟨7, 2, -1⟩]) 9 9 2 (-1)
    (by decide) (by decide)).1

end TrackingList

/-! ## Theorems: the frame driver -/

section FrameTheorems

variable {K : Type} [LinearOrderedField K]

/-- Claim C6.  One iteration of the main loop with accumulator `a` and frame time `delta`: when
`a + delta ≥ 1/60` the frame calls `app_fixedUpdate` exactly once and ends with the accumulator
at `0`, whatever the size of `a + delta`; when `a + delta < 1/60` it does not call
`app_fixedUpdate` and ends with the accumulator at `a + delta`.  Stepping and resetting always
go together: every frame is of one of these two kinds. -/
theorem mainLoopBody_spec (a delta : K) (events : Nat) :
    (a + delta ≥ 1 / 60 →
      (mainLoopBody a delta events).fixedUpdates = 1 ∧
      (mainLoopBody a delta events).g_fixedTime = 0) ∧
    (a + delta < 1 / 60 →
      (mainLoopBody a delta events).fixedUpdates = 0 ∧
      (mainLoopBody a delta events).g_fixedTime = a + delta) ∧
    (((mainLoopBody a delta events).fixedUpdates = 1 ∧
        (mainLoopBody a delta events).g_fixedTime = 0 ∧ a + delta ≥ 1 / 60) ∨
      ((mainLoopBody a delta events).fixedUpdates = 0 ∧
        (mainLoopBody a delta events).g_fixedTime = a + delta ∧ a + delta < 1 / 60)) := by
  have hge : a + delta ≥ 1 / 60 →
      (mainLoopBody a delta events).fixedUpdates = 1 ∧
      (mainLoopBody a delta events).g_fixedTime = 0 := by
    intro h
    have h' : (60 : K)⁻¹ ≤ a + delta := by simpa using h
    simp [mainLoopBody, FrameResult.fixedUpdates, FIXED_FRAME_60, h', List.count_replicate]
  have hlt : a + delta < 1 / 60 →
      (mainLoopBody a delta events).fixedUpdates = 0 ∧
      (mainLoopBody a delta events).g_fixedTime = a + delta := by
    intro h
    have h' : ¬ (60 : K)⁻¹ ≤ a + delta := by simpa using h
    simp [mainLoopBody, FrameResult.fixedUpdates, FIXED_FRAME_60, h', List.count_replicate]
  refine ⟨hge, hlt, ?_⟩
  rcases le_or_lt ((1 : K) / 60) (a + delta) with h | h
  · exact Or.inl ⟨(hge h).1, (hge h).2, h⟩
  · exact Or.inr ⟨(hlt h).1, (hlt h).2, h⟩

end FrameTheorems

/-! ## Theorems: the camera controller -/

section CameraTheorems

variable {K : Type} [LinearOrderedField K]

/-- The squared length of a difference is the squared distance. -/
theorem dot_sub_self (a b : btVector3 K) : (a.sub b).dot (a.sub b) = distSq b a := by
  simp only [btVector3.dot, btVector3.sub, distSq]
  ring

/-- Bullet's `normalize` followed by `*= force` is the velocity of the specification. -/
theorem normalize_mulScalar (btSqrt : K → K) (force : K) (source target : btVector3 K) :
    ((target.sub source).normalize btSqrt).mulScalar force =
      awayVelocity btSqrt force source target := by
  rw [btVector3.normalize, btVector3.length, dot_sub_self]
  simp only [btVector3.divScalar, btVector3.mulScalar, awayVelocity, btVector3.sub,
    btVector3.mk.injEq]
  refine ⟨?_, ?_, ?_⟩ <;> ring

/-- Swapping source and target negates the velocity of the specification. -/
theorem awayVelocity_swap (btSqrt : K → K) (force : K) (source target : btVector3 K) :
    awayVelocity btSqrt force target source = (awayVelocity btSqrt force source target).neg := by
  have hd : distSq target source = distSq source target := by
    simp only [distSq]; ring
  simp only [awayVelocity, btVector3.neg, hd, btVector3.mk.injEq]
  refine ⟨?_, ?_, ?_⟩ <;> ring

/-- Two distinct points have a non-zero squared distance. -/
theorem distSq_ne_zero (a b : btVector3 K) (h : b ≠ a) : distSq a b ≠ 0 := by
  intro h0
  apply h
  have hx := sq_nonneg (b.x - a.x)
  have hy := sq_nonneg (b.y - a.y)
  have hz := sq_nonneg (b.z - a.z)
  simp only [distSq] at h0
  have ex : (b.x - a.x) ^ 2 = 0 := by linarith
  have ey : (b.y - a.y) ^ 2 = 0 := by linarith
  have ez : (b.z - a.z) ^ 2 = 0 := by linarith
  have ex' : b.x = a.x := sub_eq_zero.1 (pow_eq_zero_iff (two_ne_zero)|>.1 ex)
  have ey' : b.y = a.y := sub_eq_zero.1 (pow_eq_zero_iff (two_ne_zero)|>.1 ey)
  have ez' : b.z = a.z := sub_eq_zero.1 (pow_eq_zero_iff (two_ne_zero)|>.1 ez)
  cases a; cases b
  simp only [btVector3.mk.injEq]
  exact ⟨ex', ey', ez'⟩

/-- With a true square root at the squared distance, the velocity of the specification has
squared length `force ^ 2` and is a positive multiple of `target - source`. -/
theorem awayVelocity_length (btSqrt : K → K) (force : K) (source target : btVector3 K)
    (hne : target ≠ source) (hforce : 0 < force)
    (h0 : 0 ≤ btSqrt (distSq source target))
    (hsq : btSqrt (distSq source target) * btSqrt (distSq source target) = distSq source target) :
    (awayVelocity btSqrt force source target).dot (awayVelocity btSqrt force source target) =
        force ^ 2 ∧
      ∃ t : K, 0 < t ∧
        awayVelocity btSqrt force source target = (target.sub source).mulScalar t := by
  have hD := distSq_ne_zero source target hne
  have hL : btSqrt (distSq source target) ≠ 0 := by
    intro h; rw [h] at hsq; exact hD (by rw [← hsq]; ring)
  have hLpos : 0 < btSqrt (distSq source target) := lt_of_le_of_ne h0 (Ne.symm hL)
  constructor
  · simp only [awayVelocity, btVector3.dot]
    have : force * (target.x - source.x) / btSqrt (distSq source target) *
          (force * (target.x - source.x) / btSqrt (distSq source target)) +
        force * (target.y - source.y) / btSqrt (distSq source target) *
          (force * (target.y - source.y) / btSqrt (distSq source target)) +
        force * (target.z - source.z) / btSqrt (distSq source target) *
          (force * (target.z - source.z) / btSqrt (distSq source target)) =
        force ^ 2 * distSq source target /
          (btSqrt (distSq source target) * btSqrt (distSq source target)) := by
      simp only [distSq]
      field_simp
      ring
    rw [this, hsq]
    field_simp
  · refine ⟨force / btSqrt (distSq source target), div_pos hforce hLpos, ?_⟩
    simp only [awayVelocity, btVector3.mulScalar, btVector3.sub, btVector3.mk.injEq]
    refine ⟨?_, ?_, ?_⟩ <;> ring

/-- Claim C7.  `PhysicsCamera::doEvent` on a key release: keys 1, 2, 3 and 4 set the mode to
`PO_PUSH`, `PO_PULL`, `PO_MASS_PUSH` and `PO_MASS_PULL` and clear the grabbed body; key 5 sets
the mode to `PO_GRAB_BODY` and keeps the grabbed body; any other key leaves the scene as it was.
A key-down event leaves the scene, hence the mode, as it was.  Nothing but the mode and the
grabbed body changes in any of these cases. -/
theorem doEvent_key (c : Collaborators K) (s : Scene K) (button : Nat) :
    doEvent c s ⟨SDL_KEYUP, SDL_SCANCODE_1, button⟩ =
        { s with camera := { s.camera with options := PhysicsOptions.PO_PUSH, grabbed := none } } ∧
      doEvent c s ⟨SDL_KEYUP, SDL_SCANCODE_2, button⟩ =
        { s with camera := { s.camera with options := PhysicsOptions.PO_PULL, grabbed := none } } ∧
      doEvent c s ⟨SDL_KEYUP, SDL_SCANCODE_3, button⟩ =
        { s with camera :=
          { s.camera with options := PhysicsOptions.PO_MASS_PUSH, grabbed := none } } ∧
      doEvent c s ⟨SDL_KEYUP, SDL_SCANCODE_4, button⟩ =
        { s with camera :=
          { s.camera with options := PhysicsOptions.PO_MASS_PULL, grabbed := none } } ∧
      doEvent c s ⟨SDL_KEYUP, SDL_SCANCODE_5, button⟩ =
        { s with camera :=
          { s.camera with options := PhysicsOptions.PO_GRAB_BODY, grabbed := s.camera.grabbed } } ∧
      (∀ scancode : Nat, scancode ≠ SDL_SCANCODE_1 → scancode ≠ SDL_SCANCODE_2 →
        scancode ≠ SDL_SCANCODE_3 → scancode ≠ SDL_SCANCODE_4 → scancode ≠ SDL_SCANCODE_5 →
        doEvent c s ⟨SDL_KEYUP, scancode, button⟩ = s) ∧
      (∀ scancode : Nat, doEvent c s ⟨SDL_KEYDOWN, scancode, button⟩ = s) := by
  refine ⟨rfl, rfl, rfl, rfl, rfl, ?_, ?_⟩
  · intro scancode h1 h2 h3 h4 h5
    simp [doEvent, doEvent.keyUp, h1, h2, h3, h4, h5, SDL_KEYUP, SDL_MOUSEBUTTONUP]
  · intro scancode
    simp [doEvent, SDL_KEYUP, SDL_MOUSEBUTTONUP, SDL_KEYDOWN]

/-- A left mouse release runs the `SDL_BUTTON_LEFT` branch and nothing else. -/
theorem doEvent_leftUp_eq (c : Collaborators K) (s : Scene K) (e : SDL_Event)
    (he : e.type = SDL_MOUSEBUTTONUP) (hb : e.button = SDL_BUTTON_LEFT) :
    doEvent c s e = doEvent.leftUp c s := by
  simp [doEvent, he, hb, SDL_KEYUP, SDL_MOUSEBUTTONUP]

/-- The position from which the ray lambdas cast is the head position. -/
theorem setY_headPosition (s : Scene K) :
    (s.heap s.camera.body).getCenterOfMassPosition.setY
      ((s.heap s.camera.body).getCenterOfMassPosition.y + 1) = headPosition s := rfl

/-- The heap after `phyRayPush`. -/
theorem phyRayPush_heap (c : Collaborators K) (s : Scene K) (force : K) :
    (phyRayPush c s force).heap =
      match c.rayTest (headPosition s) (c.pickRay (g_width / 2) (g_height / 2))
          COL_OBJECT COL_OBJECT with
      | some hit =>
        Function.update s.heap hit.m_collisionObject
          { s.heap hit.m_collisionObject with
            active := true
            linearVelocity := awayVelocity c.btSqrt force (headPosition s)
              (s.heap hit.m_collisionObject).origin }
      | none => s.heap := by
  unfold phyRayPush
  simp only [Scene.rayTest, setY_headPosition]
  cases c.rayTest (headPosition s) (c.pickRay (g_width / 2) (g_height / 2))
      COL_OBJECT COL_OBJECT with
  | none => rfl
  | some hit =>
    simp only [Scene.setLinearVelocity, Scene.activate, Scene.setLine, Function.update_same,
      Function.update_idem, btRigidBody.getCenterOfMassPosition, normalize_mulScalar]

/-- The heap after `phyRayPull`. -/
theorem phyRayPull_heap (c : Collaborators K) (s : Scene K) (force : K) :
    (phyRayPull c s force).heap =
      match c.rayTest (headPosition s) (c.pickRay (g_width / 2) (g_height / 2))
          COL_OBJECT COL_OBJECT with
      | some hit =>
        Function.update s.heap hit.m_collisionObject
          { s.heap hit.m_collisionObject with
            active := true
            linearVelocity := awayVelocity c.btSqrt force
              (s.heap hit.m_collisionObject).origin (headPosition s) }
      | none => s.heap := by
  unfold phyRayPull
  simp only [Scene.rayTest, setY_headPosition]
  cases c.rayTest (headPosition s) (c.pickRay (g_width / 2) (g_height / 2))
      COL_OBJECT COL_OBJECT with
  | none => rfl
  | some hit =>
    simp only [Scene.setLinearVelocity, Scene.activate, Scene.setLine, Function.update_same,
      Function.update_idem, btRigidBody.getCenterOfMassPosition, normalize_mulScalar]

/-- Claim C8.  `PO_PUSH` and `PO_PULL` on a left mouse release with nothing grabbed.  When the ray
from the head position `h` hits a body `b` whose centre `c` differs from `h` (and `btSqrt` is the
square root at `|c - h|²`), every other body is left as it was, `b` keeps its transform and its
angular velocity, and the linear velocity of `b` becomes `64 * (c - h) / |c - h|` in `PO_PUSH`
(squared length `64²`, a positive multiple of `c - h`) and `64 * (h - c) / |h - c|` in `PO_PULL`,
the exact negation of the push velocity.  When the ray hits nothing the bodies are left as they
were. -/
theorem doEvent_ray_push_pull (c : Collaborators K) (s : Scene K) (e : SDL_Event)
    (he : e.type = SDL_MOUSEBUTTONUP) (hb : e.button = SDL_BUTTON_LEFT)
    (hg : s.camera.grabbed = none) :
    (∀ hit : RayResult K,
      c.rayTest (headPosition s) (c.pickRay (g_width / 2) (g_height / 2)) COL_OBJECT COL_OBJECT =
        some hit →
      (s.heap hit.m_collisionObject).origin ≠ headPosition s →
      0 ≤ c.btSqrt (distSq (headPosition s) (s.heap hit.m_collisionObject).origin) →
      c.btSqrt (distSq (headPosition s) (s.heap hit.m_collisionObject).origin) *
          c.btSqrt (distSq (headPosition s) (s.heap hit.m_collisionObject).origin) =
        distSq (headPosition s) (s.heap hit.m_collisionObject).origin →
      (∀ b : Body, b ≠ hit.m_collisionObject →
        (doEvent c (s.withOptions PhysicsOptions.PO_PUSH) e).heap b = s.heap b ∧
        (doEvent c (s.withOptions PhysicsOptions.PO_PULL) e).heap b = s.heap b) ∧
      (doEvent c (s.withOptions PhysicsOptions.PO_PUSH) e).heap hit.m_collisionObject =
        { s.heap hit.m_collisionObject with
          active := true
          linearVelocity := awayVelocity c.btSqrt 64 (headPosition s)
            (s.heap hit.m_collisionObject).origin } ∧
      (doEvent c (s.withOptions PhysicsOptions.PO_PULL) e).heap hit.m_collisionObject =
        { s.heap hit.m_collisionObject with
          active := true
          linearVelocity := awayVelocity c.btSqrt 64
            (s.heap hit.m_collisionObject).origin (headPosition s) } ∧
      ((doEvent c (s.withOptions PhysicsOptions.PO_PULL) e).heap
          hit.m_collisionObject).linearVelocity =
        ((doEvent c (s.withOptions PhysicsOptions.PO_PUSH) e).heap
          hit.m_collisionObject).linearVelocity.neg ∧
      ((doEvent c (s.withOptions PhysicsOptions.PO_PUSH) e).heap
          hit.m_collisionObject).linearVelocity.dot
        ((doEvent c (s.withOptions PhysicsOptions.PO_PUSH) e).heap
          hit.m_collisionObject).linearVelocity = 64 ^ 2 ∧
      ∃ t : K, 0 < t ∧
        ((doEvent c (s.withOptions PhysicsOptions.PO_PUSH) e).heap
          hit.m_collisionObject).linearVelocity =
          ((s.heap hit.m_collisionObject).origin.sub (headPosition s)).mulScalar t) ∧
    (c.rayTest (headPosition s) (c.pickRay (g_width / 2) (g_height / 2)) COL_OBJECT COL_OBJECT =
        none →
      (doEvent c (s.withOptions PhysicsOptions.PO_PUSH) e).heap = s.heap ∧
      (doEvent c (s.withOptions PhysicsOptions.PO_PULL) e).heap = s.heap) := by
  have hpush : (doEvent c (s.withOptions PhysicsOptions.PO_PUSH) e).heap =
      (phyRayPush c (s.withOptions PhysicsOptions.PO_PUSH) 64).heap := by
    rw [doEvent_leftUp_eq c _ e he hb]
    simp [doEvent.leftUp, Scene.withOptions, hg]
  have hpull : (doEvent c (s.withOptions PhysicsOptions.PO_PULL) e).heap =
      (phyRayPull c (s.withOptions PhysicsOptions.PO_PULL) 64).heap := by
    rw [doEvent_leftUp_eq c _ e he hb]
    simp [doEvent.leftUp, Scene.withOptions, hg]
  have hhead : ∀ o, headPosition (s.withOptions o) = headPosition s := fun _ => rfl
  have hheap : ∀ o, (s.withOptions o).heap = s.heap := fun _ => rfl
  rw [hpush, hpull, phyRayPush_heap, phyRayPull_heap]
  simp only [hhead, hheap]
  constructor
  · intro hit hhit hne h0 hsq
    rw [hhit]
    simp only [Function.update_same]
    refine ⟨?_, trivial, trivial, ?_, ?_⟩
    · intro b hbne
      simp [Function.update_noteq hbne]
    · exact awayVelocity_swap c.btSqrt 64 _ _
    · exact awayVelocity_length c.btSqrt 64 _ _ hne (by norm_num) h0 hsq
  · intro hnone
    rw [hnone]
    exact ⟨rfl, rfl⟩

/-- The heap after the loop of `phyMassPush`: the listed bodies are activated and get the velocity
of the specification away from `point`, the others are as before. -/
theorem phyMassPush_loop_heap (c : Collaborators K) (point : btVector3 K) (force : K)
    (bodies : List Body) (s : Scene K) (b : Body) :
    (phyMassPush.loop c point force bodies s).heap b =
      if b ∈ bodies then
        { s.heap b with
          active := true
          linearVelocity := awayVelocity c.btSqrt force point (s.heap b).origin }
      else s.heap b := by
  induction bodies generalizing s with
  | nil => simp [phyMassPush.loop]
  | cons b0 rest ih =>
    rw [phyMassPush.loop, ih]
    simp only [Scene.setLinearVelocity, Scene.activate, Function.update_same,
      Function.update_idem, btRigidBody.getCenterOfMassPosition, normalize_mulScalar]
    by_cases hb0 : b = b0
    · subst hb0
      by_cases hr : b ∈ rest <;> simp [hr]
    · by_cases hr : b ∈ rest <;> simp [hr, hb0, Function.update_noteq hb0]

/-- The heap after the loop of `phyMassPull`: the listed bodies are activated and get the velocity
of the specification towards `point`, the others are as before. -/
theorem phyMassPull_loop_heap (c : Collaborators K) (point : btVector3 K) (force : K)
    (bodies : List Body) (s : Scene K) (b : Body) :
    (phyMassPull.loop c point force bodies s).heap b =
      if b ∈ bodies then
        { s.heap b with
          active := true
          linearVelocity := awayVelocity c.btSqrt force (s.heap b).origin point }
      else s.heap b := by
  induction bodies generalizing s with
  | nil => simp [phyMassPull.loop]
  | cons b0 rest ih =>
    rw [phyMassPull.loop, ih]
    simp only [Scene.setLinearVelocity, Scene.activate, Function.update_same,
      Function.update_idem, btRigidBody.getCenterOfMassPosition, normalize_mulScalar]
    by_cases hb0 : b = b0
    · subst hb0
      by_cases hr : b ∈ rest <;> simp [hr]
    · by_cases hr : b ∈ rest <;> simp [hr, hb0, Function.update_noteq hb0]

/-- The bodies that the box query of the area modes returns are the affected bodies of the
specification. -/
theorem mem_area_query_iff (s : Scene K) (b : Body) :
    b ∈ s.physics.getRigidBodiesFromAABB s.heap
        ((s.heap s.camera.body).getCenterOfMassPosition.sub (btVector3.splat 32))
        ((btVector3.splat 32).add (s.heap s.camera.body).getCenterOfMassPosition) []
        COL_OBJECT ↔ areaAffected s b := by
  rw [Physics.getRigidBodiesFromAABB, getRigidBodiesFromAABB_loop_eq]
  simp only [List.nil_append, List.mem_map, List.mem_filter, selected, decide_eq_true_eq,
    areaAffected, inAreaBox, btVector3.sub, btVector3.add, btVector3.splat,
    btRigidBody.getCenterOfMassPosition]
  constructor
  · rintro ⟨po, ⟨hmem, hg, hx, hy, hz⟩, rfl⟩
    refine ⟨po, hmem, rfl, hg, ⟨hx.1, ?_⟩, ⟨hy.1, ?_⟩, ⟨hz.1, ?_⟩⟩
    · rw [add_comm]; exact hx.2
    · rw [add_comm]; exact hy.2
    · rw [add_comm]; exact hz.2
  · rintro ⟨po, hmem, rfl, hg, hx, hy, hz⟩
    refine ⟨po, ⟨hmem, hg, ⟨hx.1, ?_⟩, ⟨hy.1, ?_⟩, ⟨hz.1, ?_⟩⟩, rfl⟩
    · rw [add_comm]; exact hx.2
    · rw [add_comm]; exact hy.2
    · rw [add_comm]; exact hz.2

/-- The rational square root of `49/9`. -/
theorem sqrt_49_9 : Rat.sqrt (49 / 9) = 7 / 3 := by
  have h := Rat.sqrt_eq (7 / 3)
  rw [abs_of_nonneg (by norm_num)] at h
  rw [← h]
  norm_num

/-- The rational square root of `25`. -/
theorem sqrt_25 : Rat.sqrt 25 = 5 := by
  have h := Rat.sqrt_eq 5
  rw [abs_of_nonneg (by norm_num)] at h
  rw [← h]
  norm_num

/-- The squared distance from the head to body `2` in the concrete scene. -/
theorem demo_distSq :
    distSq (headPosition demoScene) (demoScene.heap 2).origin = 49 / 9 := by
  simp [distSq, headPosition, demoScene, demoHeap, restingBody]
  norm_num

/-- An instance of claim C8 in the concrete scene: the head is at `(0, 3, 0)`, the ray hits body
`2` at distance `7/3`, and the push and pull velocities are `±(128/7, -192/7, -384/7)`. -/
theorem doEvent_ray_push_pull_witness :
    ((doEvent demoCollaborators (demoScene.withOptions PhysicsOptions.PO_PUSH) leftRelease).heap
        2).linearVelocity = ⟨128 / 7, -(192 / 7), -(384 / 7)⟩ ∧
      ((doEvent demoCollaborators (demoScene.withOptions PhysicsOptions.PO_PULL) leftRelease).heap
        2).linearVelocity = ⟨-(128 / 7), 192 / 7, 384 / 7⟩ := by
  have hd := demo_distSq
  have hs : demoCollaborators.btSqrt
      (distSq (headPosition demoScene) (demoScene.heap 2).origin) = 7 / 3 := by
    rw [hd]; exact sqrt_49_9
  have h := (doEvent_ray_push_pull demoCollaborators demoScene leftRelease rfl rfl rfl).1
    ⟨2, ⟨0, 3069 / 1024, -1⟩⟩ rfl
    (by simp [headPosition, demoScene, demoHeap, restingBody])
    (by rw [hs]; norm_num) (by rw [hs, hd]; norm_num)
  rw [h.2.1, h.2.2.1]
  simp only [awayVelocity]
  have hd' : distSq (demoScene.heap 2).origin (headPosition demoScene) = 49 / 9 := by
    rw [← hd]; simp only [distSq]; ring
  have hs' : demoCollaborators.btSqrt
      (distSq (demoScene.heap 2).origin (headPosition demoScene)) = 7 / 3 := by
    rw [hd']; exact sqrt_49_9
  rw [hs, hs']
  simp [headPosition, demoScene, demoHeap, restingBody]
  norm_num

/-- The heap after `phyMassPush` with the offsets and the force of `doEvent`. -/
theorem phyMassPush_heap (c : Collaborators K) (s : Scene K) (b : Body) [Decidable (areaAffected s b)] :
    (phyMassPush c s (btVector3.splat 32) 64).heap b =
      if areaAffected s b then
        { s.heap b with
          active := true
          linearVelocity := awayVelocity c.btSqrt 64 (s.heap s.camera.body).origin
            (s.heap b).origin }
      else s.heap b := by
  unfold phyMassPush
  simp only [phyMassPush_loop_heap, mem_area_query_iff]
  rfl

/-- The heap after `phyMassPull` with the offsets and the force of `doEvent`. -/
theorem phyMassPull_heap (c : Collaborators K) (s : Scene K) (b : Body) [Decidable (areaAffected s b)] :
    (phyMassPull c s (btVector3.splat 32) 64).heap b =
      if areaAffected s b then
        { s.heap b with
          active := true
          linearVelocity := awayVelocity c.btSqrt 64 (s.heap b).origin
            (s.heap s.camera.body).origin }
      else s.heap b := by
  unfold phyMassPull
  simp only [phyMassPull_loop_heap, mem_area_query_iff]
  rfl

/-- Claim C9.  `PO_MASS_PUSH` and `PO_MASS_PULL` on a left mouse release with nothing grabbed, with
`p` the centre of the player body.  A tracked body recorded with group `COL_OBJECT` whose centre
`o` lies in the inclusive box `[p - (32,32,32), p + (32,32,32)]` and differs from `p` gets the
linear velocity `64 * (o - p) / |o - p|` (push) or `64 * (p - o) / |p - o|` (pull); every other
body is left as it was, in particular a body tracked only with group `COL_CAMERA` or
`COL_GROUND`; no body changes its transform or its angular velocity. -/
theorem doEvent_area_push_pull (c : Collaborators K) (s : Scene K) (e : SDL_Event)
    (he : e.type = SDL_MOUSEBUTTONUP) (hb : e.button = SDL_BUTTON_LEFT)
    (hg : s.camera.grabbed = none) :
    (∀ b : Body, areaAffected s b → (s.heap b).origin ≠ (s.heap s.camera.body).origin →
      (doEvent c (s.withOptions PhysicsOptions.PO_MASS_PUSH) e).heap b =
        { s.heap b with
          active := true
          linearVelocity := awayVelocity c.btSqrt 64 (s.heap s.camera.body).origin
            (s.heap b).origin } ∧
      (doEvent c (s.withOptions PhysicsOptions.PO_MASS_PULL) e).heap b =
        { s.heap b with
          active := true
          linearVelocity := awayVelocity c.btSqrt 64 (s.heap b).origin
            (s.heap s.camera.body).origin }) ∧
    (∀ b : Body, ¬ areaAffected s b →
      (doEvent c (s.withOptions PhysicsOptions.PO_MASS_PUSH) e).heap b = s.heap b ∧
      (doEvent c (s.withOptions PhysicsOptions.PO_MASS_PULL) e).heap b = s.heap b) ∧
    (∀ b : Body,
      (∀ po ∈ s.physics.physicsObjects, po.body = b →
        po.group = COL_CAMERA ∨ po.group = COL_GROUND) →
      (doEvent c (s.withOptions PhysicsOptions.PO_MASS_PUSH) e).heap b = s.heap b ∧
      (doEvent c (s.withOptions PhysicsOptions.PO_MASS_PULL) e).heap b = s.heap b) ∧
    (∀ b : Body,
      ((doEvent c (s.withOptions PhysicsOptions.PO_MASS_PUSH) e).heap b).origin =
          (s.heap b).origin ∧
        ((doEvent c (s.withOptions PhysicsOptions.PO_MASS_PUSH) e).heap b).rotation =
          (s.heap b).rotation ∧
        ((doEvent c (s.withOptions PhysicsOptions.PO_MASS_PUSH) e).heap b).angularVelocity =
          (s.heap b).angularVelocity ∧
        ((doEvent c (s.withOptions PhysicsOptions.PO_MASS_PULL) e).heap b).origin =
          (s.heap b).origin ∧
        ((doEvent c (s.withOptions PhysicsOptions.PO_MASS_PULL) e).heap b).rotation =
          (s.heap b).rotation ∧
        ((doEvent c (s.withOptions PhysicsOptions.PO_MASS_PULL) e).heap b).angularVelocity =
          (s.heap b).angularVelocity) := by
  classical
  have hpush : ∀ b, (doEvent c (s.withOptions PhysicsOptions.PO_MASS_PUSH) e).heap b =
      if areaAffected s b then
        { s.heap b with
          active := true
          linearVelocity := awayVelocity c.btSqrt 64 (s.heap s.camera.body).origin
            (s.heap b).origin }
      else s.heap b := by
    intro b
    rw [doEvent_leftUp_eq c _ e he hb]
    have : doEvent.leftUp c (s.withOptions PhysicsOptions.PO_MASS_PUSH) =
        phyMassPush c (s.withOptions PhysicsOptions.PO_MASS_PUSH) (btVector3.splat 32) 64 := by
      simp [doEvent.leftUp, Scene.withOptions, hg]
    rw [this, phyMassPush_heap]
    rfl
  have hpull : ∀ b, (doEvent c (s.withOptions PhysicsOptions.PO_MASS_PULL) e).heap b =
      if areaAffected s b then
        { s.heap b with
          active := true
          linearVelocity := awayVelocity c.btSqrt 64 (s.heap b).origin
            (s.heap s.camera.body).origin }
      else s.heap b := by
    intro b
    rw [doEvent_leftUp_eq c _ e he hb]
    have : doEvent.leftUp c (s.withOptions PhysicsOptions.PO_MASS_PULL) =
        phyMassPull c (s.withOptions PhysicsOptions.PO_MASS_PULL) (btVector3.splat 32) 64 := by
      simp [doEvent.leftUp, Scene.withOptions, hg]
    rw [this, phyMassPull_heap]
    rfl
  have hun : ∀ b : Body, ¬ areaAffected s b →
      (doEvent c (s.withOptions PhysicsOptions.PO_MASS_PUSH) e).heap b = s.heap b ∧
      (doEvent c (s.withOptions PhysicsOptions.PO_MASS_PULL) e).heap b = s.heap b := by
    intro b hb
    rw [hpush, hpull, if_neg hb, if_neg hb]
    exact ⟨rfl, rfl⟩
  refine ⟨?_, hun, ?_, ?_⟩
  · intro b hb _
    rw [hpush, hpull, if_pos hb, if_pos hb]
    exact ⟨rfl, rfl⟩
  · intro b hgroups
    apply hun
    rintro ⟨po, hmem, hbody, hgroup, _⟩
    rcases hgroups po hmem hbody with h | h
    · rw [h] at hgroup; exact absurd hgroup (by decide)
    · rw [h] at hgroup; exact absurd hgroup (by decide)
  · intro b
    rw [hpush, hpull]
    by_cases hb : areaAffected s b
    · simp [if_pos hb]
    · simp [if_neg hb]

/-- An instance of claim C9 in the concrete scene: the player body is at `(0, 2, 0)`; body `3` at
`(3, 6, 0)` is inside the box, at distance `5`, and is pushed with `(192/5, 256/5, 0)`; body `4`
at `(100, 50, 0)` is outside the box and the player body `1` has group `COL_CAMERA`: both are
left as they were. -/
theorem doEvent_area_push_pull_witness :
    ((doEvent demoCollaborators (demoScene.withOptions PhysicsOptions.PO_MASS_PUSH)
        leftRelease).heap 3).linearVelocity = ⟨192 / 5, 256 / 5, 0⟩ ∧
      (doEvent demoCollaborators (demoScene.withOptions PhysicsOptions.PO_MASS_PUSH)
        leftRelease).heap 4 = demoScene.heap 4 ∧
      (doEvent demoCollaborators (demoScene.withOptions PhysicsOptions.PO_MASS_PUSH)
        leftRelease).heap 1 = demoScene.heap 1 := by
  have h := doEvent_area_push_pull demoCollaborators demoScene leftRelease rfl rfl rfl
  have h3 : areaAffected demoScene 3 := by
    refine ⟨⟨3, COL_OBJECT, COL_EVERYTHING⟩, by simp [demoScene], rfl, rfl, ?_⟩
    simp [inAreaBox, demoScene, demoHeap, restingBody]
    norm_num
  have h4 : ¬ areaAffected demoScene 4 := by
    rintro ⟨po, _, _, _, hbox⟩
    simp [inAreaBox, demoScene, demoHeap, restingBody] at hbox
    norm_num at hbox
  have h1 : ∀ po ∈ demoScene.physics.physicsObjects, po.body = 1 →
      po.group = COL_CAMERA ∨ po.group = COL_GROUND := by
    intro po hmem hbody
    simp only [demoScene, List.mem_cons, List.mem_singleton, List.not_mem_nil, or_false] at hmem
    rcases hmem with e | e | e | e | e <;> subst e <;> simp_all
  refine ⟨?_, (h.2.1 4 h4).1, (h.2.2.1 1 h1).1⟩
  rw [(h.1 3 h3 (by simp [demoScene, demoHeap, restingBody])).1]
  have hd : distSq (demoScene.heap demoScene.camera.body).origin (demoScene.heap 3).origin =
      25 := by
    simp [distSq, demoScene, demoHeap, restingBody]
    norm_num
  simp only [awayVelocity, hd, demoCollaborators, sqrt_25]
  simp [demoScene, demoHeap, restingBody]
  norm_num

/-- Claim C10.  In every mode, a left mouse release while a body is grabbed only clears the
grabbed body: the scene afterwards is the old scene with `grabbed` empty, so no ray test and no
box query is made, no body changes (velocity, transform or activation), and the mode and the
debug line stay as they were. -/
theorem doEvent_leftUp_grabbed (c : Collaborators K) (s : Scene K) (e : SDL_Event) (g : Body)
    (he : e.type = SDL_MOUSEBUTTONUP) (hb : e.button = SDL_BUTTON_LEFT)
    (hg : s.camera.grabbed = some g) :
    doEvent c s e = { s with camera := { s.camera with grabbed := none } } ∧
      (doEvent c s e).queries = s.queries ∧
      (doEvent c s e).heap = s.heap ∧
      (doEvent c s e).camera.grabbed = none ∧
      (doEvent c s e).camera.options = s.camera.options := by
  have h : doEvent c s e = { s with camera := { s.camera with grabbed := none } } := by
    rw [doEvent_leftUp_eq c s e he hb]
    simp [doEvent.leftUp, hg]
  rw [h]
  exact ⟨rfl, rfl, rfl, rfl, rfl⟩

/-- An instance of claim C10: body `2` is grabbed in mode `PO_GRAB_BODY` and the left button is
released. -/
theorem doEvent_leftUp_grabbed_witness :
    (doEvent demoCollaborators demoSceneGrabbed leftRelease).camera.grabbed = none ∧
      (doEvent demoCollaborators demoSceneGrabbed leftRelease).queries = [] ∧
      (doEvent demoCollaborators demoSceneGrabbed leftRelease).heap = demoHeap :=
  have h := doEvent_leftUp_grabbed demoCollaborators demoSceneGrabbed leftRelease 2 rfl rfl rfl
  ⟨h.2.2.2.1, h.2.1, h.2.2.1⟩

end CameraTheorems

/-! ## Theorems: grabbing, throwing and the ray that is cast -/

section GrabTheorems

variable {K : Type} [LinearOrderedField K]

/-- A right mouse release runs the `SDL_BUTTON_RIGHT` branch and nothing else. -/
theorem doEvent_rightUp_eq (c : Collaborators K) (s : Scene K) (e : SDL_Event)
    (he : e.type = SDL_MOUSEBUTTONUP) (hb : e.button = SDL_BUTTON_RIGHT) :
    doEvent c s e = doEvent.rightUp c s := by
  simp [doEvent, he, hb, SDL_KEYUP, SDL_MOUSEBUTTONUP, SDL_BUTTON_LEFT, SDL_BUTTON_RIGHT]

/-- The scene after `grabRigidBody`: the query is logged, the debug line runs from the head to the
ray target, and the hit body, when there is one, becomes the grabbed body. -/
theorem grabRigidBody_eq (c : Collaborators K) (s : Scene K) :
    grabRigidBody c s =
      { s with
        queries := s.queries ++ [Query.rayTest (headPosition s)
          (c.pickRay (g_width / 2) (g_height / 2)) COL_OBJECT COL_OBJECT]
        debugLine := (headPosition s, c.pickRay (g_width / 2) (g_height / 2))
        camera := { s.camera with
          grabbed :=
            match c.rayTest (headPosition s) (c.pickRay (g_width / 2) (g_height / 2))
                COL_OBJECT COL_OBJECT with
            | some hit => some hit.m_collisionObject
            | none => s.camera.grabbed } } := by
  unfold grabRigidBody
  simp only [Scene.rayTest, setY_headPosition]
  cases c.rayTest (headPosition s) (c.pickRay (g_width / 2) (g_height / 2))
      COL_OBJECT COL_OBJECT with
  | none => rfl
  | some hit => rfl

/-- Claim C11.  `PO_GRAB_BODY` on a left mouse release with nothing grabbed: when the ray hits a
body, that body becomes the grabbed body; when the ray hits nothing, the grabbed body stays
empty; in both cases every body is left as it was (velocities, transform and activation) and the
mode is still `PO_GRAB_BODY`. -/
theorem doEvent_grab (c : Collaborators K) (s : Scene K) (e : SDL_Event)
    (he : e.type = SDL_MOUSEBUTTONUP) (hb : e.button = SDL_BUTTON_LEFT)
    (hg : s.camera.grabbed = none) :
    (∀ hit : RayResult K,
      c.rayTest (headPosition s) (c.pickRay (g_width / 2) (g_height / 2)) COL_OBJECT COL_OBJECT =
        some hit →
      (doEvent c (s.withOptions PhysicsOptions.PO_GRAB_BODY) e).camera.grabbed =
        some hit.m_collisionObject) ∧
    (c.rayTest (headPosition s) (c.pickRay (g_width / 2) (g_height / 2)) COL_OBJECT COL_OBJECT =
        none →
      (doEvent c (s.withOptions PhysicsOptions.PO_GRAB_BODY) e).camera.grabbed = none) ∧
    (doEvent c (s.withOptions PhysicsOptions.PO_GRAB_BODY) e).heap = s.heap ∧
    (doEvent c (s.withOptions PhysicsOptions.PO_GRAB_BODY) e).camera.options =
      PhysicsOptions.PO_GRAB_BODY := by
  have h : doEvent c (s.withOptions PhysicsOptions.PO_GRAB_BODY) e =
      grabRigidBody c (s.withOptions PhysicsOptions.PO_GRAB_BODY) := by
    rw [doEvent_leftUp_eq c _ e he hb]
    simp [doEvent.leftUp, Scene.withOptions, hg]
  have hhead : headPosition (s.withOptions PhysicsOptions.PO_GRAB_BODY) = headPosition s := rfl
  rw [h, grabRigidBody_eq, hhead]
  refine ⟨?_, ?_, rfl, rfl⟩
  · intro hit hhit
    simp only [hhit]
  · intro hnone
    simp only [hnone]
    exact hg

/-- An instance of claim C11 in the concrete scene: the ray hits body `2`, which becomes the
grabbed body, and the bodies are as before. -/
theorem doEvent_grab_witness :
    (doEvent demoCollaborators (demoScene.withOptions PhysicsOptions.PO_GRAB_BODY)
        leftRelease).camera.grabbed = some 2 ∧
      (doEvent demoCollaborators (demoScene.withOptions PhysicsOptions.PO_GRAB_BODY)
        leftRelease).heap = demoHeap :=
  have h := doEvent_grab demoCollaborators demoScene leftRelease rfl rfl rfl
  ⟨h.1 ⟨2, ⟨0, 3069 / 1024, -1⟩⟩ rfl, h.2.2.1⟩

/-- Claim C12.  Grab-throw.  A right mouse release while a body `g` is grabbed and the mode is
`PO_GRAB_BODY` activates `g`, sets its linear velocity to `128 * d / |d|` with
`d = pickRay(screen centre) - (centre of the player body)` (for `d ≠ 0`), leaves every other
body and the rest of `g` as they were, makes no query and clears the grabbed body.  A right mouse
release while nothing is grabbed leaves the scene as it was. -/
theorem doEvent_throw (c : Collaborators K) (s : Scene K) (e : SDL_Event)
    (he : e.type = SDL_MOUSEBUTTONUP) (hb : e.button = SDL_BUTTON_RIGHT) :
    (∀ g : Body, s.camera.grabbed = some g →
      s.camera.options = PhysicsOptions.PO_GRAB_BODY →
      c.pickRay (g_width / 2) (g_height / 2) ≠ (s.heap s.camera.body).origin →
      (doEvent c s e).heap g =
        { s.heap g with
          active := true
          linearVelocity := awayVelocity c.btSqrt 128 (s.heap s.camera.body).origin
            (c.pickRay (g_width / 2) (g_height / 2)) } ∧
      (∀ b : Body, b ≠ g → (doEvent c s e).heap b = s.heap b) ∧
      (doEvent c s e).camera.grabbed = none ∧
      (doEvent c s e).camera.options = PhysicsOptions.PO_GRAB_BODY ∧
      (doEvent c s e).queries = s.queries) ∧
    (s.camera.grabbed = none → doEvent c s e = s) := by
  rw [doEvent_rightUp_eq c s e he hb]
  constructor
  · intro g hg ho _
    simp only [doEvent.rightUp, hg, ho, if_true, Scene.setLinearVelocity, Scene.activate,
      Function.update_same, Function.update_idem, btRigidBody.getCenterOfMassPosition,
      normalize_mulScalar]
    refine ⟨trivial, ?_, trivial, trivial, trivial⟩
    intro b hbg
    exact Function.update_noteq hbg _ _
  · intro hg
    simp [doEvent.rightUp, hg]

/-- An instance of claim C12 in the concrete scene while body `2` is grabbed: the throw clears the
grabbed body and leaves body `3` as it was. -/
theorem doEvent_throw_witness :
    (doEvent demoCollaborators demoSceneGrabbed rightRelease).camera.grabbed = none ∧
      (doEvent demoCollaborators demoSceneGrabbed rightRelease).heap 3 = demoHeap 3 ∧
      ((doEvent demoCollaborators demoSceneGrabbed rightRelease).heap 2).linearVelocity =
        awayVelocity Rat.sqrt 128 ⟨0, 2, 0⟩ ⟨0, 0, -1024⟩ := by
  have h := (doEvent_throw demoCollaborators demoSceneGrabbed rightRelease rfl rfl).1 2 rfl rfl
    (by simp [demoCollaborators, demoSceneGrabbed, demoScene, demoHeap, restingBody])
  refine ⟨h.2.2.1, h.2.1 3 (by decide), ?_⟩
  rw [h.1]
  rfl

/-- The queries after `phyRayPush`: one ray test from the head position to the vector that
`pickRay` returned. -/
theorem phyRayPush_queries (c : Collaborators K) (s : Scene K) (force : K) :
    (phyRayPush c s force).queries =
      s.queries ++ [Query.rayTest (headPosition s) (c.pickRay (g_width / 2) (g_height / 2))
        COL_OBJECT COL_OBJECT] := by
  unfold phyRayPush
  simp only [Scene.rayTest, setY_headPosition]
  cases c.rayTest (headPosition s) (c.pickRay (g_width / 2) (g_height / 2))
      COL_OBJECT COL_OBJECT with
  | none => rfl
  | some hit => rfl

/-- The queries after `phyRayPull`: one ray test from the head position to the vector that
`pickRay` returned. -/
theorem phyRayPull_queries (c : Collaborators K) (s : Scene K) (force : K) :
    (phyRayPull c s force).queries =
      s.queries ++ [Query.rayTest (headPosition s) (c.pickRay (g_width / 2) (g_height / 2))
        COL_OBJECT COL_OBJECT] := by
  unfold phyRayPull
  simp only [Scene.rayTest, setY_headPosition]
  cases c.rayTest (headPosition s) (c.pickRay (g_width / 2) (g_height / 2))
      COL_OBJECT COL_OBJECT with
  | none => rfl
  | some hit => rfl

/-- The segment of the ray interactions.  In `PO_PUSH`, `PO_PULL` and `PO_GRAB_BODY`, on a left
mouse release with nothing grabbed, exactly one ray test is made; its segment starts at the head
position and ends at the vector that `pickRay` returned for the screen centre, passed on as it
is. -/
theorem doEvent_ray_segment (c : Collaborators K) (s : Scene K) (e : SDL_Event)
    (he : e.type = SDL_MOUSEBUTTONUP) (hb : e.button = SDL_BUTTON_LEFT)
    (hg : s.camera.grabbed = none) :
    (doEvent c (s.withOptions PhysicsOptions.PO_PUSH) e).queries =
        s.queries ++ [Query.rayTest (headPosition s) (c.pickRay (g_width / 2) (g_height / 2))
          COL_OBJECT COL_OBJECT] ∧
      (doEvent c (s.withOptions PhysicsOptions.PO_PULL) e).queries =
        s.queries ++ [Query.rayTest (headPosition s) (c.pickRay (g_width / 2) (g_height / 2))
          COL_OBJECT COL_OBJECT] ∧
      (doEvent c (s.withOptions PhysicsOptions.PO_GRAB_BODY) e).queries =
        s.queries ++ [Query.rayTest (headPosition s) (c.pickRay (g_width / 2) (g_height / 2))
          COL_OBJECT COL_OBJECT] := by
  have hpush : doEvent c (s.withOptions PhysicsOptions.PO_PUSH) e =
      phyRayPush c (s.withOptions PhysicsOptions.PO_PUSH) 64 := by
    rw [doEvent_leftUp_eq c _ e he hb]
    simp [doEvent.leftUp, Scene.withOptions, hg]
  have hpull : doEvent c (s.withOptions PhysicsOptions.PO_PULL) e =
      phyRayPull c (s.withOptions PhysicsOptions.PO_PULL) 64 := by
    rw [doEvent_leftUp_eq c _ e he hb]
    simp [doEvent.leftUp, Scene.withOptions, hg]
  have hgrab : doEvent c (s.withOptions PhysicsOptions.PO_GRAB_BODY) e =
      grabRigidBody c (s.withOptions PhysicsOptions.PO_GRAB_BODY) := by
    rw [doEvent_leftUp_eq c _ e he hb]
    simp [doEvent.leftUp, Scene.withOptions, hg]
  rw [hpush, hpull, hgrab, phyRayPush_queries, phyRayPull_queries, grabRigidBody_eq]
  exact ⟨rfl, rfl, rfl⟩

/-- Claim C19 on the code.  The claim says that the segment handed to the ray test ends at the
head position plus the vector of `pickRay`, so that its direction is the `pickRay` direction.  In
the concrete scene the head is at `(0, 3, 0)` and `pickRay` returns `(0, 0, -1024)`: in each of
`PO_PUSH`, `PO_PULL` and `PO_GRAB_BODY` the one ray test runs from `(0, 3, 0)` to
`(0, 0, -1024)`, not to the sum `(0, 3, -1024)`, and the direction `(0, -3, -1024)` of the cast
segment is no multiple of the `pickRay` vector. -/
theorem ray_target_not_eye_relative :
    (doEvent demoCollaborators (demoScene.withOptions PhysicsOptions.PO_PUSH)
        leftRelease).queries =
      [Query.rayTest ⟨0, 3, 0⟩ ⟨0, 0, -1024⟩ COL_OBJECT COL_OBJECT] ∧
    (doEvent demoCollaborators (demoScene.withOptions PhysicsOptions.PO_PULL)
        leftRelease).queries =
      [Query.rayTest ⟨0, 3, 0⟩ ⟨0, 0, -1024⟩ COL_OBJECT COL_OBJECT] ∧
    (doEvent demoCollaborators (demoScene.withOptions PhysicsOptions.PO_GRAB_BODY)
        leftRelease).queries =
      [Query.rayTest ⟨0, 3, 0⟩ ⟨0, 0, -1024⟩ COL_OBJECT COL_OBJECT] ∧
    (headPosition demoScene).add (demoCollaborators.pickRay (g_width / 2) (g_height / 2)) =
      ⟨0, 3, -1024⟩ ∧
    (doEvent demoCollaborators (demoScene.withOptions PhysicsOptions.PO_PUSH)
        leftRelease).queries ≠
      demoScene.queries ++ [Query.rayTest (headPosition demoScene)
        ((headPosition demoScene).add (demoCollaborators.pickRay (g_width / 2) (g_height / 2)))
        COL_OBJECT COL_OBJECT] ∧
    (demoCollaborators.pickRay (g_width / 2) (g_height / 2)).sub (headPosition demoScene) =
      ⟨0, -3, -1024⟩ ∧
    ¬ ∃ t : ℚ, (demoCollaborators.pickRay (g_width / 2) (g_height / 2)).sub
        (headPosition demoScene) =
      (demoCollaborators.pickRay (g_width / 2) (g_height / 2)).mulScalar t := by
  have hhead : headPosition demoScene = ⟨0, 3, 0⟩ := by
    simp [demoScene, headPosition, demoHeap, restingBody]
    norm_num
  have hpick : demoCollaborators.pickRay (g_width / 2) (g_height / 2) = ⟨0, 0, -1024⟩ := rfl
  have hqueries : demoScene.queries = [] := rfl
  obtain ⟨hpush, hpull, hgrab⟩ :=
    doEvent_ray_segment demoCollaborators demoScene leftRelease rfl rfl rfl
  rw [hhead, hpick, hqueries, List.nil_append] at hpush hpull hgrab
  have hsum : (headPosition demoScene).add
      (demoCollaborators.pickRay (g_width / 2) (g_height / 2)) = ⟨0, 3, -1024⟩ := by
    rw [hhead, hpick]
    simp [btVector3.add]
  have hdiff : (demoCollaborators.pickRay (g_width / 2) (g_height / 2)).sub
      (headPosition demoScene) = ⟨0, -3, -1024⟩ := by
    rw [hhead, hpick]
    simp [btVector3.sub]
  refine ⟨hpush, hpull, hgrab, hsum, ?_, hdiff, ?_⟩
  · rw [hpush, hsum, hhead, hqueries]
    simp
  · rintro ⟨t, ht⟩
    rw [hdiff, hpick] at ht
    simp [btVector3.mulScalar] at ht

end GrabTheorems

/-! ## Theorems: look and move (`PhysicsCamera::update`) -/

section UpdateTheorems

variable {K : Type} [LinearOrderedField K]

/-- The factor by which `update` scales the mouse motion is `max(delta, 0.001)`. -/
theorem update_factor (delta : K) :
    (if delta - 1 / 1000 < 0 then 1 / 1000 else delta) = max delta (1 / 1000) := by
  by_cases h : delta - 1 / 1000 < 0
  · rw [if_pos h, max_eq_right]; linarith
  · rw [if_neg h, max_eq_left]; linarith

/-- The pitch after `update`. -/
theorem update_rot_x (t : Trig K) (s : Scene K) (delta : K) (x y : Int) (keys : Nat → Bool) :
    (PhysicsCamera.update t s delta x y keys).camera.rot.x =
      if s.camera.rot.x + s.camera.speed * (y : K) * max delta (1 / 1000) < -90 then -90
      else if s.camera.rot.x + s.camera.speed * (y : K) * max delta (1 / 1000) > 90 then 90
      else s.camera.rot.x + s.camera.speed * (y : K) * max delta (1 / 1000) := by
  simp only [PhysicsCamera.update, PhysicsCamera.update.look, update_factor, Scene.activate,
    Scene.setLinearVelocity]
  split_ifs <;> first | rfl | (exfalso; linarith)

/-- The yaw after `update`. -/
theorem update_rot_y (t : Trig K) (s : Scene K) (delta : K) (x y : Int) (keys : Nat → Bool) :
    (PhysicsCamera.update t s delta x y keys).camera.rot.y =
      if s.camera.rot.y + s.camera.speed * (x : K) * max delta (1 / 1000) ≤ -360 then
        s.camera.rot.y + s.camera.speed * (x : K) * max delta (1 / 1000) + 360
      else if s.camera.rot.y + s.camera.speed * (x : K) * max delta (1 / 1000) ≥ 360 then
        s.camera.rot.y + s.camera.speed * (x : K) * max delta (1 / 1000) - 360
      else s.camera.rot.y + s.camera.speed * (x : K) * max delta (1 / 1000) := by
  simp only [PhysicsCamera.update, PhysicsCamera.update.look, update_factor, Scene.activate,
    Scene.setLinearVelocity]
  split_ifs <;> first | rfl | (exfalso; linarith)

/-- Claim C14.  Pitch clamp: after `PhysicsCamera::update`, for every previous pitch, mouse motion
and frame time, the pitch lies in `[-90, 90]`; when the unclamped value
`old + 64 * dy * max(delta, 0.001)` is already in that interval it is stored unchanged. -/
theorem update_pitch_clamp (t : Trig K) (s : Scene K) (delta : K) (x y : Int)
    (keys : Nat → Bool) (hs : s.camera.speed = 64) :
    -90 ≤ (PhysicsCamera.update t s delta x y keys).camera.rot.x ∧
      (PhysicsCamera.update t s delta x y keys).camera.rot.x ≤ 90 ∧
      (-90 ≤ s.camera.rot.x + 64 * (y : K) * max delta (1 / 1000) →
        s.camera.rot.x + 64 * (y : K) * max delta (1 / 1000) ≤ 90 →
        (PhysicsCamera.update t s delta x y keys).camera.rot.x =
          s.camera.rot.x + 64 * (y : K) * max delta (1 / 1000)) := by
  rw [update_rot_x, hs]
  refine ⟨?_, ?_, ?_⟩
  · split_ifs <;> linarith
  · split_ifs <;> linarith
  · intro h1 h2
    rw [if_neg (not_lt.2 h1), if_neg (not_lt.2 h2)]

/-- An instance of claim C14 in the concrete scene: pitch `0`, mouse motion `dy = 3000` in a frame
of `1/50` seconds; the unclamped pitch is `3840` and the stored pitch is at most `90`. -/
theorem update_pitch_clamp_witness :
    (PhysicsCamera.update demoTrig demoScene (1 / 50) 0 3000 noKeys).camera.rot.x ≤ 90 :=
  (update_pitch_clamp demoTrig demoScene (1 / 50) 0 3000 noKeys rfl).2.1

/-- Claim C15 fails as stated.  In the concrete scene the yaw is `0`; with the mouse motion
`dx = 600` in a frame of `1/50` seconds the unwrapped yaw is `768`, and the yaw after the update
is `408`, which is not below `360`. -/
theorem update_yaw_not_wrapped :
    -360 < demoScene.camera.rot.y ∧ demoScene.camera.rot.y < 360 ∧
      (PhysicsCamera.update demoTrig demoScene (1 / 50) 600 0 noKeys).camera.rot.y = 408 ∧
      ¬ (PhysicsCamera.update demoTrig demoScene (1 / 50) 600 0 noKeys).camera.rot.y < 360 := by
  have h : (PhysicsCamera.update demoTrig demoScene (1 / 50) 600 0 noKeys).camera.rot.y =
      408 := by
    rw [update_rot_y]
    simp [demoScene]
    norm_num
  refine ⟨by simp [demoScene], by simp [demoScene], h, ?_⟩
  rw [h]
  norm_num

/-- Claim C15, amended.  One `PhysicsCamera::update` wraps the yaw at most once: with
`u = old + 64 * dx * max(delta, 0.001)` the yaw afterwards is `u`, `u + 360` or `u - 360`, a
whole multiple of 360 away from `u`; when `u` lies strictly between `-720` and `720` the yaw
afterwards lies strictly between `-360` and `360`, in particular when the old yaw lies strictly
between `-360` and `360` and the step `64 * dx * max(delta, 0.001)` is at most 360 in absolute
value. -/
theorem update_yaw_wrap (t : Trig K) (s : Scene K) (delta : K) (x y : Int)
    (keys : Nat → Bool) (hs : s.camera.speed = 64) :
    ((PhysicsCamera.update t s delta x y keys).camera.rot.y =
          s.camera.rot.y + 64 * (x : K) * max delta (1 / 1000) ∨
        (PhysicsCamera.update t s delta x y keys).camera.rot.y =
          s.camera.rot.y + 64 * (x : K) * max delta (1 / 1000) + 360 ∨
        (PhysicsCamera.update t s delta x y keys).camera.rot.y =
          s.camera.rot.y + 64 * (x : K) * max delta (1 / 1000) - 360) ∧
      (∃ k : Int, (PhysicsCamera.update t s delta x y keys).camera.rot.y =
        s.camera.rot.y + 64 * (x : K) * max delta (1 / 1000) + 360 * (k : K)) ∧
      (-720 < s.camera.rot.y + 64 * (x : K) * max delta (1 / 1000) →
        s.camera.rot.y + 64 * (x : K) * max delta (1 / 1000) < 720 →
        -360 < (PhysicsCamera.update t s delta x y keys).camera.rot.y ∧
          (PhysicsCamera.update t s delta x y keys).camera.rot.y < 360) ∧
      (-360 < s.camera.rot.y → s.camera.rot.y < 360 →
        |64 * (x : K) * max delta (1 / 1000)| ≤ 360 →
        -360 < (PhysicsCamera.update t s delta x y keys).camera.rot.y ∧
          (PhysicsCamera.update t s delta x y keys).camera.rot.y < 360) := by
  rw [update_rot_y, hs]
  have hbound : -720 < s.camera.rot.y + 64 * (x : K) * max delta (1 / 1000) →
      s.camera.rot.y + 64 * (x : K) * max delta (1 / 1000) < 720 →
      -360 < (if s.camera.rot.y + 64 * (x : K) * max delta (1 / 1000) ≤ -360 then
          s.camera.rot.y + 64 * (x : K) * max delta (1 / 1000) + 360
        else if s.camera.rot.y + 64 * (x : K) * max delta (1 / 1000) ≥ 360 then
          s.camera.rot.y + 64 * (x : K) * max delta (1 / 1000) - 360
        else s.camera.rot.y + 64 * (x : K) * max delta (1 / 1000)) ∧
      (if s.camera.rot.y + 64 * (x : K) * max delta (1 / 1000) ≤ -360 then
          s.camera.rot.y + 64 * (x : K) * max delta (1 / 1000) + 360
        else if s.camera.rot.y + 64 * (x : K) * max delta (1 / 1000) ≥ 360 then
          s.camera.rot.y + 64 * (x : K) * max delta (1 / 1000) - 360
        else s.camera.rot.y + 64 * (x : K) * max delta (1 / 1000)) < 360 := by
    intro h1 h2
    split_ifs <;> constructor <;> linarith
  refine ⟨?_, ?_, hbound, ?_⟩
  · split_ifs
    · exact Or.inr (Or.inl rfl)
    · exact Or.inr (Or.inr rfl)
    · exact Or.inl rfl
  · split_ifs
    · exact ⟨1, by push_cast; ring⟩
    · exact ⟨-1, by push_cast; ring⟩
    · exact ⟨0, by push_cast; ring⟩
  · intro h1 h2 h3
    have h4 := abs_le.1 h3
    exact hbound (by linarith [h4.1]) (by linarith [h4.2])

/-- An instance of the amended claim C15 in the concrete scene: yaw `0`, mouse motion `dx = 300`
in a frame of `1/50` seconds; the unwrapped yaw is `384` and the yaw after the update is below
`360`. -/
theorem update_yaw_wrap_witness :
    -360 < (PhysicsCamera.update demoTrig demoScene (1 / 50) 300 0 noKeys).camera.rot.y ∧
      (PhysicsCamera.update demoTrig demoScene (1 / 50) 300 0 noKeys).camera.rot.y < 360 :=
  (update_yaw_wrap demoTrig demoScene (1 / 50) 300 0 noKeys rfl).2.2.1
    (by simp [demoScene]; norm_num) (by simp [demoScene]; norm_num)

/-- The move part of `update`, component by component. -/
theorem update_move_eq (t : Trig K) (cam : PhysicsCamera K) (yrad : K) (vel : btVector3 K)
    (keys : Nat → Bool) :
    PhysicsCamera.update.move t cam yrad vel keys =
      { x := (if keys SDL_SCANCODE_E then cam.walkSpeed * 3 else cam.walkSpeed) / 60 *
          (moveDirection t yrad keys).1,
        y := if keys SDL_SCANCODE_SPACE then cam.jumpSpeed / 60 else vel.y,
        z := (if keys SDL_SCANCODE_E then cam.walkSpeed * 3 else cam.walkSpeed) / 60 *
          (moveDirection t yrad keys).2 } := by
  simp only [PhysicsCamera.update.move, FIXED_FRAME_60, moveDirection]
  cases keys SDL_SCANCODE_E <;> cases keys SDL_SCANCODE_SPACE <;> cases keys SDL_SCANCODE_W <;>
    cases keys SDL_SCANCODE_S <;> cases keys SDL_SCANCODE_A <;> cases keys SDL_SCANCODE_D <;>
    simp only [Bool.false_eq_true, if_false, if_true, btVector3.mk.injEq] <;>
    refine ⟨?_, ?_, ?_⟩ <;> first | trivial | ring

/-- The player body after `update`: activated, with the velocity of the move part. -/
theorem update_heap_body (t : Trig K) (s : Scene K) (delta : K) (x y : Int)
    (keys : Nat → Bool) :
    (PhysicsCamera.update t s delta x y keys).heap s.camera.body =
      { s.heap s.camera.body with
        active := true
        linearVelocity := PhysicsCamera.update.move t s.camera
          (glm.radians t (PhysicsCamera.update t s delta x y keys).camera.rot.y)
          (s.heap s.camera.body).linearVelocity keys } := by
  simp only [PhysicsCamera.update, Scene.activate, Scene.setLinearVelocity, Function.update_same]

/-- Claim C16.  The velocity that `PhysicsCamera::update` writes into the player body, with `yaw`
the yaw after the update in radians: the vertical component is the old one when the jump key is
up and `512/60` when it is down, whatever the run key; the horizontal components are the sum
over the held keys of `W: (sin, -cos)`, `S: (-sin, cos)`, `A: (-cos, -sin)`, `D: (cos, sin)` at
`yaw`, times `512/60`, or times `1536/60` while the run key is held, so they do not depend on the
old velocity; with no movement key held they are zero, and so they are when `W` and `S` are held
together and `A` and `D` are. -/
theorem update_move_velocity (t : Trig K) (s : Scene K) (delta : K) (x y : Int)
    (keys : Nat → Bool) (hw : s.camera.walkSpeed = 512) (hj : s.camera.jumpSpeed = 512) :
    ((PhysicsCamera.update t s delta x y keys).heap s.camera.body).linearVelocity.y =
        (if keys SDL_SCANCODE_SPACE then 512 / 60
          else (s.heap s.camera.body).linearVelocity.y) ∧
      ((PhysicsCamera.update t s delta x y keys).heap s.camera.body).linearVelocity.x =
        (if keys SDL_SCANCODE_E then 1536 else 512) / 60 *
          (moveDirection t
            (glm.radians t (PhysicsCamera.update t s delta x y keys).camera.rot.y) keys).1 ∧
      ((PhysicsCamera.update t s delta x y keys).heap s.camera.body).linearVelocity.z =
        (if keys SDL_SCANCODE_E then 1536 else 512) / 60 *
          (moveDirection t
            (glm.radians t (PhysicsCamera.update t s delta x y keys).camera.rot.y) keys).2 ∧
      (keys SDL_SCANCODE_W = false → keys SDL_SCANCODE_S = false →
        keys SDL_SCANCODE_A = false → keys SDL_SCANCODE_D = false →
        ((PhysicsCamera.update t s delta x y keys).heap s.camera.body).linearVelocity.x = 0 ∧
          ((PhysicsCamera.update t s delta x y keys).heap s.camera.body).linearVelocity.z = 0) ∧
      (keys SDL_SCANCODE_W = keys SDL_SCANCODE_S → keys SDL_SCANCODE_A = keys SDL_SCANCODE_D →
        ((PhysicsCamera.update t s delta x y keys).heap s.camera.body).linearVelocity.x = 0 ∧
          ((PhysicsCamera.update t s delta x y keys).heap s.camera.body).linearVelocity.z = 0) := by
  rw [update_heap_body, update_move_eq, hw, hj]
  have h3 : (512 : K) * 3 = 1536 := by norm_num
  simp only [h3]
  have hcancel : keys SDL_SCANCODE_W = keys SDL_SCANCODE_S →
      keys SDL_SCANCODE_A = keys SDL_SCANCODE_D →
      (if keys SDL_SCANCODE_E then (1536 : K) else 512) / 60 *
          (moveDirection t
            (glm.radians t (PhysicsCamera.update t s delta x y keys).camera.rot.y) keys).1 = 0 ∧
        (if keys SDL_SCANCODE_E then (1536 : K) else 512) / 60 *
          (moveDirection t
            (glm.radians t (PhysicsCamera.update t s delta x y keys).camera.rot.y) keys).2 = 0 := by
    intro h1 h2
    simp only [moveDirection, h1, h2]
    cases keys SDL_SCANCODE_S <;> cases keys SDL_SCANCODE_D <;> simp
  refine ⟨trivial, trivial, trivial, ?_, hcancel⟩
  intro hW hS hA hD
  exact hcancel (hW.trans hS.symm) (hA.trans hD.symm)

/-- An instance of claim C16 in the concrete scene: yaw `0`, `W` and the run key held, no mouse
motion; the velocity written is `(0, 0, -1536/60)`. -/
theorem update_move_velocity_witness :
    ((PhysicsCamera.update demoTrig demoScene (1 / 60) 0 0 runForwardKeys).heap
        demoScene.camera.body).linearVelocity = ⟨0, 0, -(1536 / 60)⟩ := by
  have h := update_move_velocity demoTrig demoScene (1 / 60) 0 0 runForwardKeys rfl rfl
  have hyaw : (PhysicsCamera.update demoTrig demoScene (1 / 60) 0 0
      runForwardKeys).camera.rot.y = 0 := by
    rw [update_rot_y]
    norm_num [demoScene]
  rw [hyaw] at h
  have hm : moveDirection demoTrig (glm.radians demoTrig 0) runForwardKeys = (0, -1) := by
    simp [moveDirection, runForwardKeys, SDL_SCANCODE_W, SDL_SCANCODE_S, SDL_SCANCODE_A,
      SDL_SCANCODE_D, SDL_SCANCODE_E, glm.radians, demoTrig]
  have hE : runForwardKeys SDL_SCANCODE_E = true := rfl
  have hSpace : runForwardKeys SDL_SCANCODE_SPACE = false := rfl
  have hold : (demoScene.heap demoScene.camera.body).linearVelocity.y = 0 := rfl
  rw [hm, hE, hSpace, hold] at h
  obtain ⟨hy, hx, hz, _⟩ := h
  have hv : ∀ v : btVector3 ℚ, v.x = 0 → v.y = 0 → v.z = -(1536 / 60) →
      v = ⟨0, 0, -(1536 / 60)⟩ := by
    intro v h1 h2 h3
    cases v
    simp_all
  apply hv
  · rw [hx]; norm_num
  · rw [hy]; simp
  · rw [hz]; norm_num

end UpdateTheorems

/-! ## Theorems: view, projection and picking -/

section PickTheorems

variable {K : Type} [LinearOrderedField K]

/-- The function `glm::inverse` returns the inverse matrix. -/
theorem glm_inverse_eq_inv (m : mat4 K) : glm.inverse m = m⁻¹ := by
  simp [glm.inverse, Matrix.inv_def]

/-- A right inverse of a matrix is what `glm::inverse` returns. -/
theorem glm_inverse_of_mul_eq_one (m n : mat4 K) (h : m * n = 1) : glm.inverse m = n := by
  rw [glm_inverse_eq_inv]
  exact Matrix.inv_eq_right_inv h

/-- A rotation about the x axis times its transpose is the identity. -/
theorem rotateX_mul_transpose (t : Trig K) (a : K) (h : t.sin a ^ 2 + t.cos a ^ 2 = 1) :
    glm.rotateX t a * (glm.rotateX t a).transpose = 1 := by
  ext i j
  fin_cases i <;> fin_cases j <;>
    simp [glm.rotateX, Matrix.mul_apply, Fin.sum_univ_four, Matrix.vecHead, Matrix.vecTail] <;>
    first | linear_combination h | ring

/-- A rotation about the y axis times its transpose is the identity. -/
theorem rotateY_mul_transpose (t : Trig K) (a : K) (h : t.sin a ^ 2 + t.cos a ^ 2 = 1) :
    glm.rotateY t a * (glm.rotateY t a).transpose = 1 := by
  ext i j
  fin_cases i <;> fin_cases j <;>
    simp [glm.rotateY, Matrix.mul_apply, Fin.sum_univ_four, Matrix.vecHead, Matrix.vecTail] <;>
    first | linear_combination h | ring

/-- A translation times the opposite translation is the identity. -/
theorem translate_mul_neg (v : vec3 K) :
    glm.translate v * glm.translate { x := -v.x, y := -v.y, z := -v.z } = 1 := by
  ext i j
  fin_cases i <;> fin_cases j <;>
    simp [glm.translate, Matrix.mul_apply, Fin.sum_univ_four, Matrix.vecHead, Matrix.vecTail]

/-- The opposite translation times a translation is the identity. -/
theorem translate_neg_mul (v : vec3 K) :
    glm.translate { x := -v.x, y := -v.y, z := -v.z } * glm.translate v = 1 := by
  ext i j
  fin_cases i <;> fin_cases j <;>
    simp [glm.translate, Matrix.mul_apply, Fin.sum_univ_four, Matrix.vecHead, Matrix.vecTail]

/-- Two rotations followed by a translation are undone by the translation back followed by the
transposed rotations. -/
theorem view_mul_inverse (rx ry : mat4 K) (v : vec3 K) (hx : rx * rx.transpose = 1)
    (hy : ry * ry.transpose = 1) :
    rx * ry * glm.translate { x := -v.x, y := -v.y, z := -v.z } *
      (glm.translate v * (ry.transpose * rx.transpose)) = 1 := by
  calc rx * ry * glm.translate { x := -v.x, y := -v.y, z := -v.z } *
        (glm.translate v * (ry.transpose * rx.transpose))
      = rx * (ry * ((glm.translate { x := -v.x, y := -v.y, z := -v.z } * glm.translate v) *
          ry.transpose)) * rx.transpose := by
        simp only [Matrix.mul_assoc]
    _ = 1 := by
        rw [translate_neg_mul, Matrix.one_mul, hy, Matrix.mul_one, hx]

/-- The inverse of the view matrix: the translation back to the head, after the transposed
rotations. -/
theorem inverse_getView (t : Trig K) (cam : PhysicsCamera K) (heap : Body → btRigidBody K)
    (hx : t.sin (glm.radians t cam.rot.x) ^ 2 + t.cos (glm.radians t cam.rot.x) ^ 2 = 1)
    (hy : t.sin (glm.radians t cam.rot.y) ^ 2 + t.cos (glm.radians t cam.rot.y) ^ 2 = 1) :
    glm.inverse (cam.getView t heap) =
      glm.translate { x := (heap cam.body).origin.x, y := (heap cam.body).origin.y + 1,
                      z := (heap cam.body).origin.z } *
        ((glm.rotateY t (glm.radians t cam.rot.y)).transpose *
          (glm.rotateX t (glm.radians t cam.rot.x)).transpose) := by
  apply glm_inverse_of_mul_eq_one
  exact view_mul_inverse _ _ _ (rotateX_mul_transpose t _ hx) (rotateY_mul_transpose t _ hy)

/-- The third column of the rotation part of the inverse view matrix. -/
theorem inverse_getView_column (t : Trig K) (cam : PhysicsCamera K)
    (heap : Body → btRigidBody K)
    (hx : t.sin (glm.radians t cam.rot.x) ^ 2 + t.cos (glm.radians t cam.rot.x) ^ 2 = 1)
    (hy : t.sin (glm.radians t cam.rot.y) ^ 2 + t.cos (glm.radians t cam.rot.y) ^ 2 = 1) :
    glm.inverse (cam.getView t heap) 0 2 =
        -(t.sin (glm.radians t cam.rot.y) * t.cos (glm.radians t cam.rot.x)) ∧
      glm.inverse (cam.getView t heap) 1 2 = t.sin (glm.radians t cam.rot.x) ∧
      glm.inverse (cam.getView t heap) 2 2 =
        t.cos (glm.radians t cam.rot.y) * t.cos (glm.radians t cam.rot.x) := by
  rw [inverse_getView t cam heap hx hy]
  refine ⟨?_, ?_, ?_⟩ <;>
    simp [glm.translate, glm.rotateX, glm.rotateY, Matrix.mul_apply, Fin.sum_univ_four,
      Matrix.vecHead, Matrix.vecTail]

/-- Claim C17.  `pickRay` at the screen centre `(g_width / 2, g_height / 2) = (640, 360)`, with
`yaw` and `pitch` the camera angles in radians at which `sin² + cos² = 1`: the normalized device
`x` and `y` are `0`, the camera-space point is `(0, 0, -zfar)`, and the returned vector is
`zfar * (sin yaw * cos pitch, -sin pitch, -cos yaw * cos pitch)`, whatever the position of the
player body, `fov` and `aspect`.  Its horizontal part is `zfar * cos pitch` times
`(sin yaw, -cos yaw)`, the direction in which the `W` key moves the player. -/
theorem pickRay_centre (t : Trig K) (cam : PhysicsCamera K) (heap : Body → btRigidBody K)
    (hx : t.sin (glm.radians t cam.rot.x) ^ 2 + t.cos (glm.radians t cam.rot.x) ^ 2 = 1)
    (hy : t.sin (glm.radians t cam.rot.y) ^ 2 + t.cos (glm.radians t cam.rot.y) ^ 2 = 1) :
    ((g_width / 2 : Nat) = 640 ∧ (g_height / 2 : Nat) = 360) ∧
      (ndcX ((g_width / 2 : Nat) : Int) = (0 : K) ∧ ndcY ((g_height / 2 : Nat) : Int) = (0 : K)) ∧
      cam.pickRayCoords t ((g_width / 2 : Nat) : Int) ((g_height / 2 : Nat) : Int) =
        { x := 0, y := 0, z := -cam.zfar } ∧
      cam.pickRay t heap ((g_width / 2 : Nat) : Int) ((g_height / 2 : Nat) : Int) =
        { x := cam.zfar *
            (t.sin (glm.radians t cam.rot.y) * t.cos (glm.radians t cam.rot.x)),
          y := cam.zfar * -t.sin (glm.radians t cam.rot.x),
          z := cam.zfar *
            -(t.cos (glm.radians t cam.rot.y) * t.cos (glm.radians t cam.rot.x)) } ∧
      moveDirection t (glm.radians t cam.rot.y) forwardKeys =
        (t.sin (glm.radians t cam.rot.y), -t.cos (glm.radians t cam.rot.y)) ∧
      (cam.pickRay t heap ((g_width / 2 : Nat) : Int) ((g_height / 2 : Nat) : Int)).x =
        cam.zfar * t.cos (glm.radians t cam.rot.x) *
          (moveDirection t (glm.radians t cam.rot.y) forwardKeys).1 ∧
      (cam.pickRay t heap ((g_width / 2 : Nat) : Int) ((g_height / 2 : Nat) : Int)).z =
        cam.zfar * t.cos (glm.radians t cam.rot.x) *
          (moveDirection t (glm.radians t cam.rot.y) forwardKeys).2 := by
  have hw : (g_width / 2 : Nat) = 640 := by decide
  have hh : (g_height / 2 : Nat) = 360 := by decide
  have hcoords : cam.pickRayCoords t ((g_width / 2 : Nat) : Int) ((g_height / 2 : Nat) : Int) =
      { x := 0, y := 0, z := -cam.zfar } := by
    rw [hw, hh]
    simp [PhysicsCamera.pickRayCoords, g_width, g_height]
    norm_num
  obtain ⟨h0, h1, h2⟩ := inverse_getView_column t cam heap hx hy
  have hray : cam.pickRay t heap ((g_width / 2 : Nat) : Int) ((g_height / 2 : Nat) : Int) =
      { x := cam.zfar *
          (t.sin (glm.radians t cam.rot.y) * t.cos (glm.radians t cam.rot.x)),
        y := cam.zfar * -t.sin (glm.radians t cam.rot.x),
        z := cam.zfar *
          -(t.cos (glm.radians t cam.rot.y) * t.cos (glm.radians t cam.rot.x)) } := by
    simp only [PhysicsCamera.pickRay, hcoords, glm.mat3MulVec, h0, h1, h2, btVector3.mk.injEq]
    refine ⟨?_, ?_, ?_⟩ <;> ring
  have hdir : moveDirection t (glm.radians t cam.rot.y) forwardKeys =
      (t.sin (glm.radians t cam.rot.y), -t.cos (glm.radians t cam.rot.y)) := by
    simp [moveDirection, forwardKeys, SDL_SCANCODE_W, SDL_SCANCODE_S, SDL_SCANCODE_A,
      SDL_SCANCODE_D]
  refine ⟨⟨hw, hh⟩, ⟨?_, ?_⟩, hcoords, hray, hdir, ?_, ?_⟩
  · rw [hw]; simp [ndcX, g_width]; norm_num
  · rw [hh]; simp [ndcY, g_height]; norm_num
  · rw [hray, hdir]; ring
  · rw [hray, hdir]; ring

/-- An instance of claim C17 for the camera of the concrete scene, which looks along `-z`: the
vector returned for the screen centre is `(0, 0, -1024)`. -/
theorem pickRay_centre_witness :
    demoScene.camera.pickRay demoTrig demoHeap ((g_width / 2 : Nat) : Int)
      ((g_height / 2 : Nat) : Int) = ⟨0, 0, -1024⟩ := by
  have h := (pickRay_centre demoTrig demoScene.camera demoHeap
    (by norm_num [demoTrig, glm.radians, demoScene])
    (by norm_num [demoTrig, glm.radians, demoScene])).2.2.2.1
  rw [h]
  norm_num [demoTrig, glm.radians, demoScene]

/-- The projection of a camera-space point under `glm::perspective`: `x` and `y` are scaled by
the first two diagonal terms and divided by `-z`. -/
theorem perspective_projectToNdc (t : Trig K) (fovy aspect zNear zFar : K) (p : vec3 K) :
    projectToNdc (glm.perspective t fovy aspect zNear zFar) p =
      (1 / (aspect * t.tan (fovy / 2)) * p.x / -p.z, 1 / t.tan (fovy / 2) * p.y / -p.z) := by
  simp [projectToNdc, glm.perspective, Matrix.mulVec, Matrix.dotProduct, Fin.sum_univ_four,
    Matrix.vecHead, Matrix.vecTail]

/-- The camera-space point of `pickRay`, with the two diagonal terms that the code divides by
written out: `proj[1][1] = 1 / tan(fov / 2)` for `x` and
`proj[2][2] = -(zfar + znear) / (zfar - znear)` for `y`. -/
theorem pickRayCoords_eq (t : Trig K) (cam : PhysicsCamera K) (x y : Int) :
    cam.pickRayCoords t x y =
      { x := ndcX x / (1 / t.tan (glm.radians t cam.fov / 2)) * cam.zfar,
        y := ndcY y / (-(cam.zfar + cam.znear) / (cam.zfar - cam.znear)) * cam.zfar,
        z := -1 * cam.zfar } := by
  simp [PhysicsCamera.pickRayCoords, PhysicsCamera.getProjection, glm.perspective, ndcX, ndcY,
    Matrix.vecHead, Matrix.vecTail]

/-- What the camera-space point of `pickRay` projects back to.  The code divides the normalized
device `x` by `proj[1][1]` and `y` by `proj[2][2]`; under the projection matrix and the
perspective divide the point returns to `x / aspect` and to
`-y * (zfar - znear) / (tan(fov / 2) * (zfar + znear))`. -/
theorem pickRayCoords_projectToNdc (t : Trig K) (cam : PhysicsCamera K) (x y : Int)
    (htan : t.tan (glm.radians t cam.fov / 2) ≠ 0) (haspect : cam.aspect ≠ 0)
    (hfar : cam.zfar ≠ 0) (hsum : cam.zfar + cam.znear ≠ 0) :
    projectToNdc (cam.getProjection t) (cam.pickRayCoords t x y) =
      (ndcX x / cam.aspect,
        -(ndcY y * (cam.zfar - cam.znear)) /
          (t.tan (glm.radians t cam.fov / 2) * (cam.zfar + cam.znear))) := by
  rw [PhysicsCamera.getProjection, perspective_projectToNdc, pickRayCoords_eq]
  simp only [Prod.mk.injEq]
  constructor
  · field_simp
    ring
  · have h : ndcY y / (-(cam.zfar + cam.znear) / (cam.zfar - cam.znear)) =
        -(ndcY y * (cam.zfar - cam.znear) / (cam.zfar + cam.znear)) := by
      rw [neg_div, div_neg, div_div_eq_mul_div]
    rw [h]
    field_simp
    ring

/-- Claim C20 on the code, for the camera of `app_init` (`fov = 60`, `aspect = 1280 / 720`,
`znear = 1`, `zfar = 1024`).  At the screen point `(1280, 360)` the normalized device `x` is `1`,
but the camera-space point that `pickRay` builds projects back to `x = 9/16`; at the screen point
`(640, 0)` the normalized device `y` is `1`, but the point projects back to a negative `y`. -/
theorem pickRay_reprojection_off :
    ndcX 1280 = (1 : ℚ) ∧
      (projectToNdc (demoScene.camera.getProjection demoTrig)
        (demoScene.camera.pickRayCoords demoTrig 1280 360)).1 = 9 / 16 ∧
      ndcY 0 = (1 : ℚ) ∧
      (projectToNdc (demoScene.camera.getProjection demoTrig)
        (demoScene.camera.pickRayCoords demoTrig 640 0)).2 < 0 := by
  have htan : demoTrig.tan (glm.radians demoTrig demoScene.camera.fov / 2) = 231 / 160 := by
    norm_num [demoTrig, glm.radians, demoScene]
  have h1 := pickRayCoords_projectToNdc demoTrig demoScene.camera 1280 360
    (by rw [htan]; norm_num) (by norm_num [demoScene]) (by norm_num [demoScene])
    (by norm_num [demoScene])
  have h2 := pickRayCoords_projectToNdc demoTrig demoScene.camera 640 0
    (by rw [htan]; norm_num) (by norm_num [demoScene]) (by norm_num [demoScene])
    (by norm_num [demoScene])
  rw [h1, h2, htan]
  refine ⟨?_, ?_, ?_, ?_⟩
  · norm_num [ndcX, g_width]
  · norm_num [ndcX, g_width, demoScene]
  · norm_num [ndcY, g_height]
  · norm_num [ndcY, g_height, demoScene]

end PickTheorems

/-! ## Theorems: the fixed tick -/

section FixedUpdateTheorems

variable {K : Type} [LinearOrderedField K]

/-- The vector `glm::normalize(glm::vec3(1, 1, 1))` is `(1, 1, 1) / sqrt(3)`. -/
theorem normalize_ones (t : Trig K) :
    glm.normalize t ({ x := 1, y := 1, z := 1 } : vec3 K) =
      { x := 1 / t.sqrt 3, y := 1 / t.sqrt 3, z := 1 / t.sqrt 3 } := by
  have h : (1 : K) + 1 + 1 = 3 := by norm_num
  simp only [glm.normalize, one_mul, h]

/-- Claim C13.  Grab-hold.  At the end of a fixed tick (the world step, then
`PhysicsCamera::fixedUpdate`) in which the mode is `PO_GRAB_BODY` and a body `g` is grabbed,
whatever the step did to the bodies: the origin of `g` is
`inverse(translate(0.5, 0.5, 5) * view)` applied to the point `(1, 1, 1) / sqrt(3)`, with the
view taken after the step; its rotation is the Euler quaternion of yaw `-rot.y` and pitch
`-rot.x` in radians with roll `0`; `g` is activated and keeps the velocities it had after the
step; every other body and the camera are as the step left them.  When nothing is grabbed or the
mode is not `PO_GRAB_BODY`, `fixedUpdate` changes nothing. -/
theorem app_fixedUpdate_hold (t : Trig K)
    (stepSimulation : (Body → btRigidBody K) → Body → btRigidBody K) (s : Scene K) :
    (∀ g : Body, s.camera.options = PhysicsOptions.PO_GRAB_BODY → s.camera.grabbed = some g →
      ((app_fixedUpdate t stepSimulation s).heap g).origin =
          { x := (glm.inverse (glm.translate ({ x := 1 / 2, y := 1 / 2, z := 5 } : vec3 K) *
                s.camera.getView t (stepSimulation s.heap))).mulVec
                ![1 / t.sqrt 3, 1 / t.sqrt 3, 1 / t.sqrt 3, 1] 0,
            y := (glm.inverse (glm.translate ({ x := 1 / 2, y := 1 / 2, z := 5 } : vec3 K) *
                s.camera.getView t (stepSimulation s.heap))).mulVec
                ![1 / t.sqrt 3, 1 / t.sqrt 3, 1 / t.sqrt 3, 1] 1,
            z := (glm.inverse (glm.translate ({ x := 1 / 2, y := 1 / 2, z := 5 } : vec3 K) *
                s.camera.getView t (stepSimulation s.heap))).mulVec
                ![1 / t.sqrt 3, 1 / t.sqrt 3, 1 / t.sqrt 3, 1] 2 } ∧
        ((app_fixedUpdate t stepSimulation s).heap g).rotation =
          btQuaternion.setEuler t (btRadians t (-s.camera.rot.y))
            (btRadians t (-s.camera.rot.x)) 0 ∧
        ((app_fixedUpdate t stepSimulation s).heap g).linearVelocity =
          (stepSimulation s.heap g).linearVelocity ∧
        ((app_fixedUpdate t stepSimulation s).heap g).angularVelocity =
          (stepSimulation s.heap g).angularVelocity ∧
        ((app_fixedUpdate t stepSimulation s).heap g).active = true ∧
        (∀ b : Body, b ≠ g →
          (app_fixedUpdate t stepSimulation s).heap b = stepSimulation s.heap b) ∧
        (app_fixedUpdate t stepSimulation s).camera = s.camera ∧
        (app_fixedUpdate t stepSimulation s).queries = s.queries) ∧
    (s.camera.grabbed = none → PhysicsCamera.fixedUpdate t s = s) ∧
    (s.camera.options ≠ PhysicsOptions.PO_GRAB_BODY → PhysicsCamera.fixedUpdate t s = s) := by
  refine ⟨?_, ?_, ?_⟩
  · intro g hmode hg
    simp only [app_fixedUpdate, PhysicsCamera.fixedUpdate, hmode, hg, if_true, normalize_ones,
      Scene.setCenterOfMassTransform, Scene.activate, Function.update_same,
      Function.update_idem]
    refine ⟨trivial, trivial, trivial, trivial, trivial, ?_, trivial, trivial⟩
    intro b hb
    exact Function.update_noteq hb _ _
  · intro hg
    simp only [PhysicsCamera.fixedUpdate, hg]
    split_ifs <;> rfl
  · intro hmode
    simp only [PhysicsCamera.fixedUpdate, hmode, if_false]

/-- An instance of claim C13 in the concrete scene while body `2` is grabbed, for a step that
moves no body: body `3` is as before and body `2` keeps its velocity and is activated. -/
theorem app_fixedUpdate_hold_witness :
    (app_fixedUpdate demoTrig id demoSceneGrabbed).heap 3 = demoHeap 3 ∧
      ((app_fixedUpdate demoTrig id demoSceneGrabbed).heap 2).linearVelocity =
        (demoHeap 2).linearVelocity ∧
      ((app_fixedUpdate demoTrig id demoSceneGrabbed).heap 2).active = true :=
  have h := (app_fixedUpdate_hold demoTrig id demoSceneGrabbed).1 2 rfl rfl
  ⟨h.2.2.2.2.2.1 3 (by decide), h.2.2.1, h.2.2.2.2.1⟩

end FixedUpdateTheorems

/-! ## Theorems: the geometry primitives -/

section GeometryTheorems

variable {K : Type} [LinearOrderedField K]

/-- The inner vertex loop of the sphere, when it runs `n` more times: it ends, having added `n`
vertices. -/
theorem sphere_inner_length (t : Trig K) (p slice phi : K) (n : Nat) :
    ∀ (fuel : Nat) (pheta : K) (list : List K), n < fuel →
      (∀ k : Nat, k < n → pheta + (k : K) * slice < 360) →
      ¬ pheta + (n : K) * slice < 360 →
      ∃ l, GeometrySphere.init.inner t p slice phi fuel pheta list = some l ∧
        l.length = list.length + 3 * n := by
  induction n with
  | zero =>
    intro fuel pheta list hfuel _ hend
    obtain ⟨f, rfl⟩ : ∃ f, fuel = f + 1 := ⟨fuel - 1, by omega⟩
    have hend' : ¬ pheta < 360 := by simpa using hend
    exact ⟨list, by simp [GeometrySphere.init.inner, hend'], by simp⟩
  | succ n ih =>
    intro fuel pheta list hfuel hlt hend
    obtain ⟨f, rfl⟩ : ∃ f, fuel = f + 1 := ⟨fuel - 1, by omega⟩
    have h0 : pheta < 360 := by simpa using hlt 0 (Nat.succ_pos n)
    have hstep : ∀ k : Nat, k < n → pheta + slice + (k : K) * slice < 360 := by
      intro k hk
      have := hlt (k + 1) (Nat.succ_lt_succ hk)
      push_cast at this
      linarith
    have hend' : ¬ pheta + slice + (n : K) * slice < 360 := by
      intro h
      apply hend
      push_cast
      linarith
    obtain ⟨l, hl, hlen⟩ := ih f (pheta + slice)
      (list ++ [p * t.sin (glm.radians t phi) * t.cos (glm.radians t pheta),
        p * t.sin (glm.radians t phi) * t.sin (glm.radians t pheta),
        p * t.cos (glm.radians t phi)]) (by omega) hstep hend'
    refine ⟨l, ?_, ?_⟩
    · simp only [GeometrySphere.init.inner, h0, if_true]
      exact hl
    · rw [hlen]
      simp only [List.length_append, List.length_cons, List.length_nil]
      omega

/-- The outer vertex loop of the sphere, when it runs `n` more times and every inner loop adds
`m` vertices: it ends, having added `m * n` vertices. -/
theorem sphere_outer_length (t : Trig K) (p slice slice2 : K) (fuel m : Nat)
    (hinner : ∀ (phi : K) (list : List K),
      ∃ l, GeometrySphere.init.inner t p slice phi fuel 0 list = some l ∧
        l.length = list.length + 3 * m) (n : Nat) :
    ∀ (outerFuel : Nat) (phi : K) (list : List K), n < outerFuel →
      (∀ k : Nat, k < n → phi + (k : K) * slice2 ≤ 180) →
      ¬ phi + (n : K) * slice2 ≤ 180 →
      ∃ l, GeometrySphere.init.outer t p slice slice2 fuel outerFuel phi list = some l ∧
        l.length = list.length + 3 * (m * n) := by
  induction n with
  | zero =>
    intro outerFuel phi list hfuel _ hend
    obtain ⟨f, rfl⟩ : ∃ f, outerFuel = f + 1 := ⟨outerFuel - 1, by omega⟩
    have hend' : ¬ phi ≤ 180 := by simpa using hend
    exact ⟨list, by simp [GeometrySphere.init.outer, hend'], by simp⟩
  | succ n ih =>
    intro outerFuel phi list hfuel hle hend
    obtain ⟨f, rfl⟩ : ∃ f, outerFuel = f + 1 := ⟨outerFuel - 1, by omega⟩
    have h0 : phi ≤ 180 := by simpa using hle 0 (Nat.succ_pos n)
    have hstep : ∀ k : Nat, k < n → phi + slice2 + (k : K) * slice2 ≤ 180 := by
      intro k hk
      have := hle (k + 1) (Nat.succ_lt_succ hk)
      push_cast at this
      linarith
    have hend' : ¬ phi + slice2 + (n : K) * slice2 ≤ 180 := by
      intro h
      apply hend
      push_cast
      linarith
    obtain ⟨l1, hl1, hlen1⟩ := hinner phi list
    obtain ⟨l, hl, hlen⟩ := ih f (phi + slice2) l1 (by omega) hstep hend'
    refine ⟨l, ?_, ?_⟩
    · simp only [GeometrySphere.init.outer, h0, if_true, hl1]
      exact hl
    · rw [hlen, hlen1]
      ring

/-- The vertex loops of the sphere end and emit 17 rings of 32 vertices. -/
theorem sphere_vertices (t : Trig K) (fuel : Nat) (hfuel : 33 ≤ fuel) :
    ∃ l, GeometrySphere.init.outer t 1 (360 / ((32 : Nat) : K))
        (180 / ((32 / 2 : Nat) : K)) fuel fuel 0 [] = some l ∧ l.length = 3 * 544 := by
  have hinner : ∀ (phi : K) (list : List K),
      ∃ l, GeometrySphere.init.inner t 1 (360 / ((32 : Nat) : K)) phi fuel 0 list = some l ∧
        l.length = list.length + 3 * 32 := by
    intro phi list
    apply sphere_inner_length t 1 _ phi 32 fuel 0 list (by omega)
    · intro k hk
      have hk' : (k : K) < 32 := by exact_mod_cast hk
      norm_num
      linarith
    · norm_num
  obtain ⟨l, hl, hlen⟩ := sphere_outer_length t 1 (360 / ((32 : Nat) : K))
    (180 / ((32 / 2 : Nat) : K)) fuel 32 hinner 17 fuel 0 [] (by omega)
    (by
      intro k hk
      have hk' : (k : K) ≤ 16 := by exact_mod_cast Nat.lt_succ_iff.1 hk
      norm_num
      linarith)
    (by norm_num)
  exact ⟨l, hl, by rw [hlen]; rfl⟩

/-- Claim C18 on the code.  The plane and the quad use the indices `0..3` over 4 vertices and the
cube the indices `0..7` over 8 vertices, all below the vertex count.  The sphere's vertex loops
end and emit 17 rings of 32 vertices, 544 in all; its index loops reach
`p3 = (15 + 1) * 32 + (31 + 1) = 544` at `y = 15`, `x = 31`: every index is at most 544, the
index 544 occurs, and so not every index is below the vertex count. -/
theorem geometry_index_bound (t : Trig K) :
    (∀ i ∈ (GeometryPlane.init : Geometry K).indincies,
        i < (GeometryPlane.init : Geometry K).vertexCount) ∧
      (∀ i ∈ (GeometryQuad.init : Geometry K).indincies,
        i < (GeometryQuad.init : Geometry K).vertexCount) ∧
      (∀ i ∈ (GeometryCube.init : Geometry K).indincies,
        i < (GeometryCube.init : Geometry K).vertexCount) ∧
      (GeometryPlane.init : Geometry K).vertexCount = 4 ∧
      (GeometryQuad.init : Geometry K).vertexCount = 4 ∧
      (GeometryCube.init : Geometry K).vertexCount = 8 ∧
      (∀ fuel : Nat, 33 ≤ fuel →
        ∃ g : Geometry K, GeometrySphere.init t fuel = some g ∧
          g.vertexCount = 544 ∧
          (15 + 1) * 32 + (31 + 1) ∈ g.indincies ∧
          (∀ i ∈ g.indincies, i ≤ 544) ∧
          ¬ ∀ i ∈ g.indincies, i < g.vertexCount) := by
  refine ⟨?_, ?_, ?_, ?_, ?_, ?_, ?_⟩
  · intro i hi
    simp [GeometryPlane.init, Geometry.vertexCount] at hi ⊢
    omega
  · intro i hi
    simp [GeometryQuad.init, Geometry.vertexCount] at hi ⊢
    omega
  · intro i hi
    simp [GeometryCube.init, Geometry.vertexCount] at hi ⊢
    omega
  · simp [GeometryPlane.init, Geometry.vertexCount]
  · simp [GeometryQuad.init, Geometry.vertexCount]
  · simp [GeometryCube.init, Geometry.vertexCount]
  · intro fuel hfuel
    obtain ⟨l, hl, hlen⟩ := sphere_vertices t fuel hfuel
    have hmem : (15 + 1) * 32 + (31 + 1) ∈ GeometrySphere.init.indices 32 := by
      simp only [GeometrySphere.init.indices, List.mem_flatMap, List.mem_range]
      exact ⟨15, by decide, 31, by decide, by simp⟩
    have hle : ∀ i ∈ GeometrySphere.init.indices 32, i ≤ 544 := by
      intro i hi
      simp only [GeometrySphere.init.indices, List.mem_flatMap, List.mem_range] at hi
      obtain ⟨y, hy, x, hx, hi⟩ := hi
      simp at hi
      omega
    have hcount : l.length / 3 = 544 := by rw [hlen]
    refine ⟨{ vertices := l, texCoords := [], indincies := GeometrySphere.init.indices 32 },
      ?_, hcount, hmem, hle, ?_⟩
    · simp only [GeometrySphere.init, hl]
    · intro hall
      have := hall _ hmem
      simp only [Geometry.vertexCount, hcount] at this
      omega

end GeometryTheorems

/-! ## Theorems: runs of the main loop -/

section MainLoopTheorems

variable {K : Type} [LinearOrderedField K]

/-- A frame either steps once and resets the accumulator or does not step and keeps the
accumulated time. -/
theorem mainLoopBody_cases (a delta : K) (events : Nat) :
    ((mainLoopBody a delta events).fixedUpdates = 1 ∧
        (mainLoopBody a delta events).g_fixedTime = 0 ∧ 1 / 60 ≤ a + delta) ∨
      ((mainLoopBody a delta events).fixedUpdates = 0 ∧
        (mainLoopBody a delta events).g_fixedTime = a + delta ∧ a + delta < 1 / 60) := by
  rcases le_or_lt ((1 : K) / 60) (a + delta) with h | h
  · left
    have h' : (60 : K)⁻¹ ≤ a + delta := by simpa using h
    refine ⟨?_, ?_, h⟩ <;>
      simp [mainLoopBody, FrameResult.fixedUpdates, FIXED_FRAME_60, h', List.count_replicate]
  · right
    have h' : ¬ (60 : K)⁻¹ ≤ a + delta := by simpa using h
    refine ⟨?_, ?_, h⟩ <;>
      simp [mainLoopBody, FrameResult.fixedUpdates, FIXED_FRAME_60, h', List.count_replicate]

/-- A run of the main loop from a non-negative accumulator `a` below the fixed step: it has one
result a frame, the steps are at most the frames, the stepped time is at most `a` plus the
elapsed time, and every frame ends with the accumulator in `[0, 1/60)`. -/
theorem mainLoop_bounds (frames : List (K × Nat)) :
    ∀ a : K, 0 ≤ a → (∀ f ∈ frames, 0 ≤ f.1) →
      (mainLoop a frames).length = frames.length ∧
      fixedUpdateCount (mainLoop a frames) ≤ frames.length ∧
      (fixedUpdateCount (mainLoop a frames) : K) * (1 / 60) ≤
        a + (frames.map Prod.fst).sum ∧
      ∀ r ∈ mainLoop a frames, 0 ≤ r.g_fixedTime ∧ r.g_fixedTime < 1 / 60 := by
  induction frames with
  | nil =>
    intro a ha _
    simp [mainLoop, fixedUpdateCount, ha]
  | cons frame rest ih =>
    intro a ha hpos
    have hd : 0 ≤ frame.1 := hpos frame (List.mem_cons_self _ _)
    have hrest : ∀ f ∈ rest, 0 ≤ f.1 := fun f hf => hpos f (List.mem_cons_of_mem _ hf)
    have hacc : 0 ≤ (mainLoopBody a frame.1 frame.2).g_fixedTime ∧
        (mainLoopBody a frame.1 frame.2).g_fixedTime < 1 / 60 := by
      rcases mainLoopBody_cases a frame.1 frame.2 with ⟨_, h0, _⟩ | ⟨_, h0, hlt⟩
      · rw [h0]; constructor <;> norm_num
      · rw [h0]; exact ⟨by linarith, hlt⟩
    obtain ⟨hlen, hk, htime, hall⟩ := ih _ hacc.1 hrest
    have hcount : fixedUpdateCount (mainLoop a (frame :: rest)) =
        (mainLoopBody a frame.1 frame.2).fixedUpdates +
          fixedUpdateCount (mainLoop (mainLoopBody a frame.1 frame.2).g_fixedTime rest) := by
      simp [mainLoop, fixedUpdateCount]
    refine ⟨by simp [mainLoop, hlen], ?_, ?_, ?_⟩
    · rw [hcount]
      rcases mainLoopBody_cases a frame.1 frame.2 with ⟨h1, _, _⟩ | ⟨h1, _, _⟩ <;>
        rw [h1] <;> simp only [List.length_cons] <;> omega
    · rw [hcount]
      simp only [List.map_cons, List.sum_cons]
      rcases mainLoopBody_cases a frame.1 frame.2 with ⟨h1, h0, hge⟩ | ⟨h1, h0, _⟩
      · rw [h1]
        push_cast
        linarith [h0]
      · rw [h1]
        push_cast
        linarith [h0]
    · intro r hr
      simp only [mainLoop, List.mem_cons] at hr
      rcases hr with e | hmem
      · rw [e]; exact hacc
      · exact hall r hmem

/-- Claim C22.  The simulation never runs ahead of the wall clock: for every finite sequence of
frames with non-negative frame times `d1..dn`, whatever their events, fed to the main loop with
the accumulator at `0`, the number `k` of `app_fixedUpdate` calls satisfies `k ≤ n` and
`k * (1/60) ≤ d1 + ... + dn`, and the accumulator at the end of every frame is in
`[0, 1/60)`. -/
theorem mainLoop_not_ahead (frames : List (K × Nat)) (hpos : ∀ f ∈ frames, 0 ≤ f.1) :
    fixedUpdateCount (mainLoop 0 frames) ≤ frames.length ∧
      (fixedUpdateCount (mainLoop 0 frames) : K) * (1 / 60) ≤ (frames.map Prod.fst).sum ∧
      (mainLoop 0 frames).length = frames.length ∧
      ∀ r ∈ mainLoop 0 frames, 0 ≤ r.g_fixedTime ∧ r.g_fixedTime < 1 / 60 := by
  obtain ⟨hlen, hk, htime, hall⟩ := mainLoop_bounds frames 0 (le_refl 0) hpos
  refine ⟨hk, ?_, hlen, hall⟩
  simpa using htime

/-- An instance of claim C22 for three frames of 10, 10 and 20 milliseconds: the steps are at
most three and the stepped time is at most the 40 milliseconds that passed. -/
theorem mainLoop_not_ahead_witness :
    fixedUpdateCount (mainLoop 0 demoFrames) ≤ 3 ∧
      (fixedUpdateCount (mainLoop 0 demoFrames) : ℚ) * (1 / 60) ≤ 1 / 25 := by
  have h := mainLoop_not_ahead demoFrames (by
    intro f hf
    simp only [demoFrames, List.mem_cons, List.mem_singleton, List.not_mem_nil, or_false] at hf
    rcases hf with e | e | e <;> rw [e] <;> norm_num)
  refine ⟨h.1, ?_⟩
  have hsum : (demoFrames.map Prod.fst).sum = 1 / 25 := by
    simp [demoFrames]
    norm_num
  rw [← hsum]
  exact h.2.1

end MainLoopTheorems

/-! ## Theorems: the reachable states of the camera controller -/

/-- The key switch of `doEvent` keeps the invariant. -/
theorem keyUp_invariant {K : Type} (cam : PhysicsCamera K) (scancode : Nat)
    (h : ∀ g : Body, cam.grabbed = some g → cam.options = PhysicsOptions.PO_GRAB_BODY) :
    ∀ g : Body, (doEvent.keyUp cam scancode).grabbed = some g →
      (doEvent.keyUp cam scancode).options = PhysicsOptions.PO_GRAB_BODY := by
  intro g
  unfold doEvent.keyUp
  split_ifs
  · intro hg; simp at hg
  · intro hg; simp at hg
  · intro hg; simp at hg
  · intro hg; simp at hg
  · intro _; rfl
  · exact h g

section ReachableTheorems

variable {K : Type} [LinearOrderedField K]

/-- The lambda `phyRayPush` leaves the camera as it was. -/
theorem phyRayPush_camera (c : Collaborators K) (s : Scene K) (force : K) :
    (phyRayPush c s force).camera = s.camera := by
  unfold phyRayPush
  simp only [Scene.rayTest]
  cases c.rayTest _ _ COL_OBJECT COL_OBJECT with
  | none => rfl
  | some hit => rfl

/-- The lambda `phyRayPull` leaves the camera as it was. -/
theorem phyRayPull_camera (c : Collaborators K) (s : Scene K) (force : K) :
    (phyRayPull c s force).camera = s.camera := by
  unfold phyRayPull
  simp only [Scene.rayTest]
  cases c.rayTest _ _ COL_OBJECT COL_OBJECT with
  | none => rfl
  | some hit => rfl

/-- The loop of `phyMassPush` leaves the camera as it was. -/
theorem phyMassPush_loop_camera (c : Collaborators K) (point : btVector3 K) (force : K)
    (bodies : List Body) (s : Scene K) :
    (phyMassPush.loop c point force bodies s).camera = s.camera := by
  induction bodies generalizing s with
  | nil => rfl
  | cons b rest ih =>
    rw [phyMassPush.loop, ih]
    rfl

/-- The loop of `phyMassPull` leaves the camera as it was. -/
theorem phyMassPull_loop_camera (c : Collaborators K) (point : btVector3 K) (force : K)
    (bodies : List Body) (s : Scene K) :
    (phyMassPull.loop c point force bodies s).camera = s.camera := by
  induction bodies generalizing s with
  | nil => rfl
  | cons b rest ih =>
    rw [phyMassPull.loop, ih]
    rfl

/-- The left button branch of `doEvent` ends in a state with the invariant. -/
theorem leftUp_invariant (c : Collaborators K) (s : Scene K) :
    grabbedInGrabMode (doEvent.leftUp c s) := by
  intro g
  unfold doEvent.leftUp
  cases hgr : s.camera.grabbed with
  | some g0 =>
    intro hg
    simp at hg
  | none =>
    cases hopt : s.camera.options with
    | PO_PUSH =>
      simp only [phyRayPush_camera, hgr]
      intro hg; simp at hg
    | PO_PULL =>
      simp only [phyRayPull_camera, hgr]
      intro hg; simp at hg
    | PO_MASS_PUSH =>
      simp only [phyMassPush, phyMassPush_loop_camera, hgr]
      intro hg; simp at hg
    | PO_MASS_PULL =>
      simp only [phyMassPull, phyMassPull_loop_camera, hgr]
      intro hg; simp at hg
    | PO_GRAB_BODY =>
      simp only [grabRigidBody_eq, hopt]
      intro _; trivial

/-- The right button branch of `doEvent` keeps the invariant. -/
theorem rightUp_invariant (c : Collaborators K) (s : Scene K) (h : grabbedInGrabMode s) :
    grabbedInGrabMode (doEvent.rightUp c s) := by
  intro g
  unfold doEvent.rightUp
  cases hgr : s.camera.grabbed with
  | none =>
    simp only [hgr]
    intro hg; simp at hg
  | some g0 =>
    simp only []
    split_ifs with hopt
    · intro hg
      simp [Scene.setLinearVelocity, Scene.activate] at hg
    · intro hg
      exact h g hg

/-- The method `doEvent` keeps the invariant, whatever the event and the collaborators. -/
theorem doEvent_invariant (c : Collaborators K) (s : Scene K) (e : SDL_Event)
    (h : grabbedInGrabMode s) : grabbedInGrabMode (doEvent c s e) := by
  have hkey : grabbedInGrabMode
      (if e.type = SDL_KEYUP then { s with camera := doEvent.keyUp s.camera e.scancode }
        else s) := by
    split_ifs
    · exact keyUp_invariant s.camera e.scancode h
    · exact h
  unfold doEvent
  simp only []
  generalize (if e.type = SDL_KEYUP then { s with camera := doEvent.keyUp s.camera e.scancode }
    else s) = s1 at hkey ⊢
  split_ifs
  · exact leftUp_invariant c s1
  · exact rightUp_invariant c s1 hkey
  · exact hkey
  · exact hkey

/-- The method `update` leaves the mode and the grabbed body as they were. -/
theorem update_camera (t : Trig K) (s : Scene K) (delta : K) (x y : Int) (keys : Nat → Bool) :
    (PhysicsCamera.update t s delta x y keys).camera.options = s.camera.options ∧
      (PhysicsCamera.update t s delta x y keys).camera.grabbed = s.camera.grabbed :=
  ⟨rfl, rfl⟩

/-- The method `fixedUpdate` leaves the camera as it was. -/
theorem fixedUpdate_camera (t : Trig K) (s : Scene K) :
    (PhysicsCamera.fixedUpdate t s).camera = s.camera := by
  unfold PhysicsCamera.fixedUpdate
  split_ifs
  · cases s.camera.grabbed with
    | none => rfl
    | some g => rfl
  · rfl

/-- Every call into the camera controller keeps the invariant. -/
theorem apply_invariant (s : Scene K) (call : CameraCall K) (h : grabbedInGrabMode s) :
    grabbedInGrabMode (call.apply s) := by
  cases call with
  | doEvent c e => exact doEvent_invariant c s e h
  | update t delta x y keys =>
    intro g hg
    exact h g hg
  | fixedUpdate t =>
    intro g hg
    simp only [CameraCall.apply, fixedUpdate_camera] at hg ⊢
    exact h g hg
  | app_fixedUpdate t stepSimulation =>
    intro g hg
    simp only [CameraCall.apply, app_fixedUpdate, fixedUpdate_camera] at hg ⊢
    exact h g hg

/-- A run from a state with the invariant ends in a state with the invariant. -/
theorem runCalls_invariant (calls : List (CameraCall K)) :
    ∀ s : Scene K, grabbedInGrabMode s → grabbedInGrabMode (runCalls s calls) := by
  induction calls with
  | nil => intro s h; exact h
  | cons call rest ih =>
    intro s h
    exact ih (call.apply s) (apply_invariant s call h)

/-- Claim C21.  Reachable-state invariant of the camera controller.  From an initial state (mode
`PO_PUSH`, nothing grabbed) and after every sequence of `doEvent` calls (any events, any ray test
outcomes) interleaved with `update` and `fixedUpdate` calls and fixed ticks, whenever a body is
grabbed the mode is `PO_GRAB_BODY`.  So no reachable state has a grabbed body in another mode;
in a reachable state with a grabbed body `g` a right mouse release always throws (it sets the
velocity of `g` and clears the grabbed body), and `fixedUpdate` always holds `g`: it activates
`g` and overwrites its transform. -/
theorem camera_reachable_invariant (s0 : Scene K) (calls : List (CameraCall K))
    (h0 : initialCamera s0) :
    grabbedInGrabMode (runCalls s0 calls) ∧
      ¬ (∃ g : Body, (runCalls s0 calls).camera.grabbed = some g ∧
        (runCalls s0 calls).camera.options ≠ PhysicsOptions.PO_GRAB_BODY) ∧
      (∀ g : Body, (runCalls s0 calls).camera.grabbed = some g →
        ∀ (c : Collaborators K) (e : SDL_Event),
          e.type = SDL_MOUSEBUTTONUP → e.button = SDL_BUTTON_RIGHT →
          (doEvent c (runCalls s0 calls) e).camera.grabbed = none ∧
          ((doEvent c (runCalls s0 calls) e).heap g).linearVelocity =
            (((c.pickRay (g_width / 2) (g_height / 2)).sub
              ((runCalls s0 calls).heap (runCalls s0 calls).camera.body).origin).normalize
                c.btSqrt).mulScalar 128) ∧
      (∀ g : Body, (runCalls s0 calls).camera.grabbed = some g →
        ∀ t : Trig K,
          PhysicsCamera.fixedUpdate t (runCalls s0 calls) =
            Scene.setCenterOfMassTransform ((runCalls s0 calls).activate g) g
              { x := (glm.inverse (glm.translate ({ x := 1 / 2, y := 1 / 2, z := 5 } : vec3 K) *
                    (runCalls s0 calls).camera.getView t (runCalls s0 calls).heap)).mulVec
                    ![1 / t.sqrt 3, 1 / t.sqrt 3, 1 / t.sqrt 3, 1] 0,
                y := (glm.inverse (glm.translate ({ x := 1 / 2, y := 1 / 2, z := 5 } : vec3 K) *
                    (runCalls s0 calls).camera.getView t (runCalls s0 calls).heap)).mulVec
                    ![1 / t.sqrt 3, 1 / t.sqrt 3, 1 / t.sqrt 3, 1] 1,
                z := (glm.inverse (glm.translate ({ x := 1 / 2, y := 1 / 2, z := 5 } : vec3 K) *
                    (runCalls s0 calls).camera.getView t (runCalls s0 calls).heap)).mulVec
                    ![1 / t.sqrt 3, 1 / t.sqrt 3, 1 / t.sqrt 3, 1] 2 }
              (btQuaternion.setEuler t (btRadians t (-(runCalls s0 calls).camera.rot.y))
                (btRadians t (-(runCalls s0 calls).camera.rot.x)) 0)) := by
  have hinit : grabbedInGrabMode s0 := by
    intro g hg
    rw [h0.2] at hg
    simp at hg
  have hinv := runCalls_invariant calls s0 hinit
  generalize runCalls s0 calls = s at hinv ⊢
  refine ⟨hinv, ?_, ?_, ?_⟩
  · rintro ⟨g, hg, hne⟩
    exact hne (hinv g hg)
  · intro g hg c e he hb
    have hmode := hinv g hg
    rw [doEvent_rightUp_eq c s e he hb]
    simp only [doEvent.rightUp, hg, hmode, if_true, Scene.setLinearVelocity, Scene.activate,
      Function.update_same, btRigidBody.getCenterOfMassPosition]
    exact ⟨trivial, trivial⟩
  · intro g hg t
    have hmode := hinv g hg
    simp only [PhysicsCamera.fixedUpdate, hg, hmode, if_true, normalize_ones]

/-- An instance of claim C21: the run over the concrete scene in which key `5` is released and
the ray then hits body `2` ends with body `2` grabbed, in mode `PO_GRAB_BODY`. -/
theorem camera_reachable_invariant_witness :
    (runCalls demoScene demoCalls).camera.grabbed = some 2 ∧
      (runCalls demoScene demoCalls).camera.options = PhysicsOptions.PO_GRAB_BODY := by
  have hg : (runCalls demoScene demoCalls).camera.grabbed = some 2 := rfl
  exact ⟨hg, (camera_reachable_invariant demoScene demoCalls ⟨rfl, rfl⟩).1 2 hg⟩

end ReachableTheorems

end BulletPhysicsTest
